import Mathlib

/-!
Verification of the Synology Cloud Sync decryption tool (Go implementation).

The development shallowly embeds the core decryption pipeline:
the container stream decoder (`StreamDecoder`, `DecodeCSEncStream`),
the cryptographic helpers (`OpenSSLKDF`, `MD5Hash`, `StripPKCS7Padding`,
`SaltedHashOf`, `DecryptWithPassword`) and the streaming driver
(`DecryptStreamWithFilename`).

Bytes are modelled as `Nat` values below 256 collected in `List Nat`;
Go strings are byte lists as well.  Go machine integers are modelled as
`Int` with explicit two's-complement wrapping where overflow can occur.
External primitives used by the code are handled as follows:

* MD5 (Go `crypto/md5`) is implemented in full, so every definition is
  executable.
* AES-256-CBC (Go `crypto/aes` + `crypto/cipher`) is implemented in full
  (standard inverse cipher, equivalent to the Go library functions).
* Base64 (`encoding/base64`) and hex (`encoding/hex`) are implemented.
* The LZ4 decompressor is an external subprocess (`lz4 -d`) spawned by
  `pkg/util`; it is modelled from the spec as an LZ4 frame decoder whose
  failures never propagate to the caller, matching the Go wrapper whose
  `Write`/`Close` errors are ignored by the driver and whose read
  goroutine only prints errors.
* RSA-OAEP decryption (`crypto/rsa`) is kept as an explicit parameter of
  the pipeline, since no claim depends on its internals.
-/

set_option autoImplicit false

namespace SynoDecrypt

/-- Byte list of an ASCII string literal (all literals used in the code
are ASCII, where Go string bytes coincide with code points). -/
def strBytes (s : String) : List Nat :=
  s.data.map Char.toNat

/-- 32-bit truncating addition. -/
def add32 (a b : Nat) : Nat := (a + b) % 4294967296

/-- 32-bit left rotation (arguments below 2^32, 0 < s < 32). -/
def rotl32 (x s : Nat) : Nat :=
  ((x <<< s) + (x >>> (32 - s))) % 4294967296

/-- Little-endian 4-byte encoding of a 32-bit word. -/
def le4 (w : Nat) : List Nat :=
  [w % 256, w / 256 % 256, w / 65536 % 256, w / 16777216 % 256]

/-- Little-endian 8-byte encoding of a 64-bit value. -/
def le8 (w : Nat) : List Nat :=
  le4 (w % 4294967296) ++ le4 (w / 4294967296 % 4294967296)

/-- The 64 MD5 sine constants, packed little-endian into one number
(entry i is `md5KN >>> (32*i)` masked to 32 bits). -/
def md5KN : Nat := 0xeb86d3912ad7d2bbbd3af235f7537e824e0811a1a3014314fe2ce6e06fa87e4f85845dd1ffeff47d8f0ccc92655b59c3fc93a039ab9423a7432aff97f4292244c4ac56651fa27cf8e6db99e5d9d4d03904881d05d4ef3085eaa127fa289b7ec6bebfbc70f6bb4b604bdecfa9a4beea44fde5380c6d9d61228771f681fffa39428d2a4c8a676f02d9fcefa3f8a9e3e905455a14edf4d50d87c33707d621e1cde6e7d3fbc8d8a1e68102441453d62f105de9b6c7aa265e5a51c040b340f61e256249b40821a679438efd9871936b901122895cd7beffff5bb18b44f7af698098d8fd469501a83046134787c62af57c0fafc1bdceee242070dbe8c7b756d76aa478

/-- The 64 MD5 per-round shift amounts, one byte each. -/
def md5SN : Nat := 0x150f0a06150f0a06150f0a06150f0a0617100b0417100b0417100b0417100b04140e0905140e0905140e0905140e090516110c0716110c0716110c0716110c07

/-- Byte entry i of a packed table. -/
def byteAt (t i : Nat) : Nat := (t >>> (8 * i)) % 256

/-- 32-bit word entry i of a packed table. -/
def w32At (t i : Nat) : Nat := (t >>> (32 * i)) % 4294967296

/-- MD5 round function value and message-word index for round i. -/
def md5FG (b c d i : Nat) : Nat × Nat :=
  if i < 16 then ((b &&& c) ||| ((4294967295 ^^^ b) &&& d), i)
  else if i < 32 then ((d &&& b) ||| ((4294967295 ^^^ d) &&& c), (5 * i + 1) % 16)
  else if i < 48 then (b ^^^ c ^^^ d, (3 * i + 5) % 16)
  else (c ^^^ (b ||| (4294967295 ^^^ d)), (7 * i) % 16)

/-- One MD5 step on the (a, b, c, d) state; m is the 16-word message block. -/
def md5Step (m : List Nat) (st : Nat × Nat × Nat × Nat) (i : Nat) : Nat × Nat × Nat × Nat :=
  match st with
  | (a, b, c, d) =>
    let fg := md5FG b c d i
    let t := add32 (add32 (add32 a fg.1) (w32At md5KN i)) (m.getD fg.2 0)
    (d, add32 b (rotl32 t (byteAt md5SN i)), b, c)

/-- Little-endian 32-bit words of a 64-byte block. -/
def blockWords (blk : List Nat) : List Nat :=
  (List.range 16).map fun j =>
    blk.getD (4 * j) 0 + 256 * blk.getD (4 * j + 1) 0 +
      65536 * blk.getD (4 * j + 2) 0 + 16777216 * blk.getD (4 * j + 3) 0

/-- Fold one 64-byte block into the running MD5 state. -/
def md5Block (st : Nat × Nat × Nat × Nat) (blk : List Nat) : Nat × Nat × Nat × Nat :=
  let r := (List.range 64).foldl (md5Step (blockWords blk)) st
  (add32 st.1 r.1, add32 st.2.1 r.2.1, add32 st.2.2.1 r.2.2.1, add32 st.2.2.2 r.2.2.2)

/-- MD5 padding: a 0x80 byte, zeros up to 56 mod 64, then the 8-byte
little-endian bit length. -/
def md5Pad (msg : List Nat) : List Nat :=
  msg ++ 128 :: List.replicate ((119 - msg.length % 64) % 64) 0 ++ le8 (8 * msg.length)

/-- Fold all 64-byte blocks of a padded message into the state.  The
first argument only bounds the recursion (one unit per block, so the
byte count always suffices); the padded length is a multiple of 64. -/
def md5Fold : Nat → (Nat × Nat × Nat × Nat) → List Nat → Nat × Nat × Nat × Nat
  | _, st, [] => st
  | 0, st, _ => st
  | fuel + 1, st, bs => md5Fold fuel (md5Block st (bs.take 64)) (bs.drop 64)

/-- MD5 digest (16 bytes) of a byte list; models Go crypto/md5. -/
def md5Bytes (msg : List Nat) : List Nat :=
  let p := md5Pad msg
  let r := md5Fold p.length (1732584193, 4023233417, 2562383102, 271733878) p
  le4 r.1 ++ le4 r.2.1 ++ le4 r.2.2.1 ++ le4 r.2.2.2

/-- Source `MD5Hash` (crypto.go): the MD5 digest of data. -/
def MD5Hash (data : List Nat) : List Nat := md5Bytes data

/-- Lowercase hex digits as ASCII bytes. -/
def hexDigits : List Nat := strBytes "0123456789abcdef"

/-- Lowercase hex encoding; models Go hex.EncodeToString. -/
def hexEncode (bs : List Nat) : List Nat :=
  bs.flatMap fun b => [hexDigits.getD (b / 16) 0, hexDigits.getD (b % 16) 0]

/-- Value of one ASCII hex digit. -/
def hexVal (c : Nat) : Option Nat :=
  if 48 ≤ c ∧ c ≤ 57 then some (c - 48)
  else if 97 ≤ c ∧ c ≤ 102 then some (c - 87)
  else if 65 ≤ c ∧ c ≤ 70 then some (c - 55)
  else none

/-- Hex decoding; models Go hex.Decode, which fails on an odd-length
input or any non-hex byte (the caller only uses the output when the
whole input decoded). -/
def hexDecode : List Nat → Option (List Nat)
  | [] => some []
  | [_] => none
  | c1 :: c2 :: rest =>
    match hexVal c1, hexVal c2, hexDecode rest with
    | some h, some l, some tl => some ((16 * h + l) :: tl)
    | _, _, _ => none

/-- Value of one base64 (standard alphabet) digit. -/
def b64Val (c : Nat) : Option Nat :=
  if 65 ≤ c ∧ c ≤ 90 then some (c - 65)
  else if 97 ≤ c ∧ c ≤ 122 then some (c - 71)
  else if 48 ≤ c ∧ c ≤ 57 then some (c + 4)
  else if c = 43 then some 62
  else if c = 47 then some 63
  else none

/-- Decode base64 quads with trailing padding. -/
def b64Quads : List Nat → Option (List Nat)
  | [] => some []
  | c1 :: c2 :: c3 :: c4 :: rest =>
    match b64Val c1, b64Val c2 with
    | some v1, some v2 =>
      if c3 = 61 then
        if c4 = 61 ∧ rest = [] then some [v1 * 4 + v2 / 16] else none
      else
        match b64Val c3 with
        | some v3 =>
          if c4 = 61 then
            if rest = [] then some [v1 * 4 + v2 / 16, v2 % 16 * 16 + v3 / 4]
            else none
          else
            match b64Val c4, b64Quads rest with
            | some v4, some tl =>
              some ((v1 * 4 + v2 / 16) :: (v2 % 16 * 16 + v3 / 4) :: (v3 % 4 * 64 + v4) :: tl)
            | _, _ => none
        | _ => none
    | _, _ => none
  | _ => none

/-- Models Go base64.StdEncoding.DecodeString: carriage returns and
newlines are skipped, otherwise the input must be padded quads. -/
def base64Decode (s : List Nat) : Option (List Nat) :=
  b64Quads (s.filter fun c => c != 13 && c != 10)

/-- The AES S-box, packed byte-wise (entry i is byte i). -/
def sboxN : Nat := 0x16bb54b00f2d99416842e6bf0d89a18cdf2855cee9871e9b948ed9691198f8e19e1dc186b95735610ef6034866b53e708a8bbd4b1f74dde8c6b4a61c2e2578ba08ae7a65eaf4566ca94ed58d6d37c8e779e4959162acd3c25c2406490a3a32e0db0b5ede14b8ee4688902a22dc4f816073195d643d7ea7c41744975fec130ccdd2f3ff1021dab6bcf5389d928f40a351a89f3c507f02f94585334d43fbaaefd0cf584c4a39becb6a5bb1fc20ed00d153842fe329b3d63b52a05a6e1b1a2c830975b227ebe28012079a059618c323c7041531d871f1e5a534ccf73f362693fdb7c072a49cafa2d4adf04759fa7dc982ca76abd7fe2b670130c56f6bf27b777c63

/-- The AES inverse S-box, packed byte-wise. -/
def invSboxN : Nat := 0x7d0c2155631469e126d677ba7e042b17619953833cbbebc8b0f52aae4d3be0a0ef9cc9939f7ae52d0d4ab519a97f51605fec8027591012b131c7078833a8dd1ff45acd78fec0db9a2079d2c64b3e56fc1bbe18aa0e62b76f89c5291d711af1476edf751ce837f9e28535ade72274ac9673e6b4f0cecff297eadc674f4111913a6b8a130103bdafc1020f3fca8f1e2cd00645b3b80558e4f70ad3bc8c00abd890849d8da75746155edab9edfd5048706c92b6655dcc5ca4d41698688664f6f87225d18b6d49a25b76b224d92866a12e084ec3fa420b954cee3d23c2a632947b54cbe9dec444438e3487ff2f9b8239e37cfbd7f3819ea340bf38a53630d56a0952

/-- Table lookup in the packed S-box. -/
def sboxAt (i : Nat) : Nat := byteAt sboxN i

/-- Table lookup in the packed inverse S-box. -/
def invSboxAt (i : Nat) : Nat := byteAt invSboxN i

/-- Doubling in GF(2^8) with the AES reduction polynomial. -/
def xtime (b : Nat) : Nat := if b < 128 then 2 * b else (2 * b - 256) ^^^ 27

/-- Multiplication by 9 in GF(2^8). -/
def g9 (x : Nat) : Nat := xtime (xtime (xtime x)) ^^^ x

/-- Multiplication by 11 in GF(2^8). -/
def g11 (x : Nat) : Nat := xtime (xtime (xtime x)) ^^^ xtime x ^^^ x

/-- Multiplication by 13 in GF(2^8). -/
def g13 (x : Nat) : Nat := xtime (xtime (xtime x)) ^^^ xtime (xtime x) ^^^ x

/-- Multiplication by 14 in GF(2^8). -/
def g14 (x : Nat) : Nat := xtime (xtime (xtime x)) ^^^ xtime (xtime x) ^^^ xtime x

/-- Inverse ShiftRows on the flat 16-byte state (byte i sits at row
i mod 4, column i div 4). -/
def invShiftRows (s : List Nat) : List Nat :=
  (List.range 16).map fun i => s.getD (i % 4 + 4 * ((i / 4 + 4 - i % 4) % 4)) 0

/-- Inverse SubBytes. -/
def invSubBytes (s : List Nat) : List Nat := s.map invSboxAt

/-- XOR of two byte lists (also AddRoundKey). -/
def xorBytes (s k : List Nat) : List Nat := s.zipWith (fun a b => a ^^^ b) k

/-- Inverse MixColumns on one column. -/
def invMixOne (a0 a1 a2 a3 : Nat) : List Nat :=
  [g14 a0 ^^^ g11 a1 ^^^ g13 a2 ^^^ g9 a3,
   g9 a0 ^^^ g14 a1 ^^^ g11 a2 ^^^ g13 a3,
   g13 a0 ^^^ g9 a1 ^^^ g14 a2 ^^^ g11 a3,
   g11 a0 ^^^ g13 a1 ^^^ g9 a2 ^^^ g14 a3]

/-- Inverse MixColumns on the flat state. -/
def invMixColumns (s : List Nat) : List Nat :=
  (List.range 4).flatMap fun c =>
    invMixOne (s.getD (4 * c) 0) (s.getD (4 * c + 1) 0)
      (s.getD (4 * c + 2) 0) (s.getD (4 * c + 3) 0)

/-- Rotate a 32-bit key-schedule word left by one byte. -/
def rotWord (w : Nat) : Nat := ((w <<< 8) + (w >>> 24)) % 4294967296

/-- Apply the S-box to each byte of a key-schedule word. -/
def subWord (w : Nat) : Nat :=
  (sboxAt (w >>> 24 % 256)) <<< 24 + (sboxAt (w >>> 16 % 256)) <<< 16 +
    (sboxAt (w >>> 8 % 256)) <<< 8 + sboxAt (w % 256)

/-- AES round constant for step j (1 ≤ j ≤ 7 for a 256-bit key). -/
def rconAt (j : Nat) : Nat := (2 ^ (j - 1) % 256) <<< 24

/-- AES-256 key expansion into 60 schedule words. -/
def aesExpandKey (key : List Nat) : List Nat :=
  let w0 := (List.range 8).map fun i =>
    (key.getD (4 * i) 0 <<< 24) + (key.getD (4 * i + 1) 0 <<< 16) +
      (key.getD (4 * i + 2) 0 <<< 8) + key.getD (4 * i + 3) 0
  (List.range 52).foldl (fun ws j =>
    let i := j + 8
    let prev := ws.getD (i - 1) 0
    let t := if i % 8 == 0 then subWord (rotWord prev) ^^^ rconAt (i / 8)
      else if i % 8 == 4 then subWord prev
      else prev
    ws ++ [ws.getD (i - 8) 0 ^^^ t]) w0

/-- Big-endian bytes of a key-schedule word. -/
def w2bytes (w : Nat) : List Nat := [w >>> 24 % 256, w >>> 16 % 256, w >>> 8 % 256, w % 256]

/-- Round key r as 16 bytes. -/
def roundKey (ws : List Nat) (r : Nat) : List Nat :=
  (List.range 4).flatMap fun c => w2bytes (ws.getD (4 * r + c) 0)

/-- AES-256 single-block decryption (standard inverse cipher, equal to
the Go crypto/aes block decryption). -/
def aesDecBlock (ws ct : List Nat) : List Nat :=
  let s0 := xorBytes ct (roundKey ws 14)
  let s := (List.range 13).foldl (fun s j =>
    invMixColumns (xorBytes (invSubBytes (invShiftRows s)) (roundKey ws (13 - j)))) s0
  xorBytes (invSubBytes (invShiftRows s)) (roundKey ws 0)

/-- CBC-mode block-by-block decryption; returns the plaintext and the
final chain value (the last ciphertext block), as kept by Go
cipher.BlockMode between CryptBlocks calls.  The first argument only
bounds the recursion (one unit per block, so the byte count always
suffices); the input length is a multiple of 16, enforced by the
caller. -/
def cbcDecF (ws : List Nat) : Nat → List Nat → List Nat → List Nat × List Nat
  | _, iv, [] => ([], iv)
  | 0, iv, _ => ([], iv)
  | fuel + 1, iv, ct =>
    let blk := ct.take 16
    let p := xorBytes (aesDecBlock ws blk) iv
    let r := cbcDecF ws fuel blk (ct.drop 16)
    (p ++ r.1, r.2)

/-- CBC-mode decryption of a whole buffer. -/
def cbcDecLoop (ws iv ct : List Nat) : List Nat × List Nat :=
  cbcDecF ws ct.length iv ct

/-- Iterated MD5 (count applications). -/
def iterMD5 : Nat → List Nat → List Nat
  | 0, x => x
  | n + 1, x => md5Bytes (iterMD5 n x)

/-- The body of source `OpenSSLKDF` (crypto.go): keep hashing
(temp ++ password ++ salt) count times and appending the digest to fd
until at least need bytes exist.  The fuel argument only serves
termination; `need` rounds always suffice because every iteration
appends a 16-byte digest (count is 1 or 1000 at both call sites). -/
def kdfRounds (password salt : List Nat) (count : Nat) (temp fd : List Nat) (need : Nat) :
    Nat → List Nat
  | 0 => fd
  | fuel + 1 =>
    if need ≤ fd.length then fd
    else
      let hashed := iterMD5 count (temp ++ password ++ salt)
      kdfRounds password salt count hashed (fd ++ hashed) need fuel

/-- Source `OpenSSLKDF` (crypto.go).  The Go function returns
(key, iv, err) with err always nil; the model returns the pair. -/
def OpenSSLKDF (password salt : List Nat) (keySize ivSize : Nat) : List Nat × List Nat :=
  let count := if salt.length > 0 then 1000 else 1
  let fd := kdfRounds password salt count [] [] (keySize + ivSize) (keySize + ivSize)
  (fd.take keySize, (fd.drop keySize).take ivSize)

/-- Source `CSENCPBKDF` (crypto.go): OpenSSLKDF with a 32-byte key and
16-byte IV. -/
def CSENCPBKDF (password salt : List Nat) : List Nat × List Nat :=
  OpenSSLKDF password salt 32 16

/-- Ways the embedded Go code can panic at runtime. -/
inductive PanicKind
  | indexOutOfRange
  | typeAssertion
  | sliceBounds
  | notFullBlocks
  deriving DecidableEq, Repr

/-- Errors returned by source `StripPKCS7Padding` (crypto.go). -/
inductive StripErr
  | invalidLength
  | invalidPaddingByte (p : Nat)
  | invalidPaddingAt (i : Nat)
  deriving DecidableEq, Repr

/-- Result of `StripPKCS7Padding`: ok, a Go error, or a runtime panic
(indexing data[len-1] of an empty slice). -/
inductive StripOut
  | ok (data : List Nat)
  | err (e : StripErr)
  | panicked (k : PanicKind)
  deriving DecidableEq, Repr

/-- Source `StripPKCS7Padding` (crypto.go): length must be a multiple
of 16; the last byte is the padding count (at most 16); all padding
bytes must equal it; the padding is dropped.  On the empty list the Go
code panics (data[len(data)-1] with len 0). -/
def StripPKCS7Padding (data : List Nat) : StripOut :=
  if data.length % 16 ≠ 0 then StripOut.err StripErr.invalidLength
  else
    match data.getLast? with
    | none => StripOut.panicked PanicKind.indexOutOfRange
    | some pad =>
      if 16 < pad then StripOut.err (StripErr.invalidPaddingByte pad)
      else
        match (List.range pad).find? (fun j => data.getD (data.length - pad + j) 0 != pad) with
        | some j => StripOut.err (StripErr.invalidPaddingAt (data.length - pad + j))
        | none => StripOut.ok (data.take (data.length - pad))

/-- Source test helper `addPKCS7Padding` (crypto_test.go): pad with
16 - len mod 16 copies of that count. -/
def addPKCS7Padding (data : List Nat) : List Nat :=
  let padding := 16 - data.length % 16
  data ++ List.replicate padding padding

/-- Source `SaltedHashOf` (crypto.go): salt concatenated with the hex
MD5 of salt and data. -/
def SaltedHashOf (salt data : List Nat) : List Nat :=
  salt ++ hexEncode (md5Bytes (salt ++ data))

/-- Source `DecryptWithPassword` (crypto.go): CBC-decrypt the
ciphertext under the CSENCPBKDF key and IV, then strip PKCS7 padding.
Go CryptBlocks panics when the ciphertext length is not a multiple
of 16. -/
def DecryptWithPassword (ciphertext password salt : List Nat) : StripOut :=
  if ciphertext.length % 16 ≠ 0 then StripOut.panicked PanicKind.notFullBlocks
  else
    let kv := CSENCPBKDF password salt
    StripPKCS7Padding (cbcDecLoop (aesExpandKey kv.1) kv.2 ciphertext).1

/-- Modelled from the spec: xxHash32 prime 1. -/
def xxP1 : Nat := 2654435761

/-- Modelled from the spec: xxHash32 prime 2. -/
def xxP2 : Nat := 2246822519

/-- Modelled from the spec: xxHash32 prime 3. -/
def xxP3 : Nat := 3266489917

/-- Modelled from the spec: xxHash32 prime 4. -/
def xxP4 : Nat := 668265263

/-- Modelled from the spec: xxHash32 prime 5. -/
def xxP5 : Nat := 374761393

/-- Little-endian 32-bit word read from the first four bytes of a
list (missing bytes read as 0). -/
def leW (bs : List Nat) : Nat :=
  bs.getD 0 0 + 256 * bs.getD 1 0 + 65536 * bs.getD 2 0 + 16777216 * bs.getD 3 0

/-- Modelled from the spec: one xxHash32 accumulator round. -/
def xxRound (v w : Nat) : Nat :=
  rotl32 ((v + w * xxP2) % 4294967296) 13 * xxP1 % 4294967296

/-- Modelled from the spec: the xxHash32 16-byte stripe loop over the
four running accumulators; returns them and the unconsumed tail. -/
def xxStripes : Nat → Nat → Nat → Nat → List Nat → Nat × Nat × Nat × Nat × List Nat
  | v1, v2, v3, v4,
    b1 :: b2 :: b3 :: b4 :: b5 :: b6 :: b7 :: b8 ::
    b9 :: b10 :: b11 :: b12 :: b13 :: b14 :: b15 :: b16 :: rest =>
    xxStripes (xxRound v1 (leW [b1, b2, b3, b4])) (xxRound v2 (leW [b5, b6, b7, b8]))
      (xxRound v3 (leW [b9, b10, b11, b12])) (xxRound v4 (leW [b13, b14, b15, b16])) rest
  | v1, v2, v3, v4, rest => (v1, v2, v3, v4, rest)

/-- Modelled from the spec: the xxHash32 4-byte tail loop. -/
def xxTail4 : Nat → List Nat → Nat × List Nat
  | h, b1 :: b2 :: b3 :: b4 :: rest =>
    xxTail4 (rotl32 ((h + leW [b1, b2, b3, b4] * xxP3) % 4294967296) 17 * xxP4 % 4294967296) rest
  | h, rest => (h, rest)

/-- Modelled from the spec: the xxHash32 single-byte tail loop. -/
def xxTail1 : Nat → List Nat → Nat
  | h, b :: rest => xxTail1 (rotl32 ((h + b * xxP5) % 4294967296) 11 * xxP1 % 4294967296) rest
  | h, [] => h

/-- Modelled from the spec: the xxHash32 final avalanche. -/
def xxAval (h0 : Nat) : Nat :=
  let h1 := h0 ^^^ h0 / 32768
  let h2 := h1 * xxP2 % 4294967296
  let h3 := h2 ^^^ h2 / 8192
  let h4 := h3 * xxP3 % 4294967296
  h4 ^^^ h4 / 65536

/-- Modelled from the spec: xxHash32 of a byte list under a seed, the
checksum the LZ4 frame format applies to the frame descriptor, to each
block when announced, and to the decoded content when announced. -/
def xxh32 (seed : Nat) (bs : List Nat) : Nat :=
  let hr :=
    if 16 ≤ bs.length then
      let s := xxStripes ((seed + xxP1 + xxP2) % 4294967296) ((seed + xxP2) % 4294967296)
        (seed % 4294967296) ((seed + (4294967296 - xxP1 % 4294967296)) % 4294967296) bs
      ((rotl32 s.1 1 + rotl32 s.2.1 7 + rotl32 s.2.2.1 12 + rotl32 s.2.2.2.1 18) % 4294967296,
        s.2.2.2.2)
    else ((seed + xxP5) % 4294967296, bs)
  let t := xxTail4 ((hr.1 + bs.length) % 4294967296) hr.2
  xxAval (xxTail1 t.1 t.2)

/-- Modelled from the spec: one LZ4 match copy (n bytes from distance
d back in the output), byte by byte so overlapping copies replicate. -/
def lzCopy : Nat → Nat → List Nat → List Nat
  | 0, _, acc => acc
  | n + 1, d, acc => lzCopy n d (acc ++ [acc.getD (acc.length - d) 0])

/-- Modelled from the spec: LZ4 variable length extension (a run of
255 bytes plus a final byte).  Returns the added length and the rest. -/
def lzVarLen : List Nat → Nat → Nat × List Nat × Bool
  | [], _ => (0, [], false)
  | b :: rest, 0 => (b, rest, true)
  | b :: rest, fuel + 1 =>
    if b = 255 then
      let r := lzVarLen rest fuel
      (255 + r.1, r.2.1, r.2.2)
    else (b, rest, true)

/-- Modelled from the spec: decode the sequences of one LZ4 block into
the running output; on malformed input returns the output so far and
false. -/
def lz4Block (acc : List Nat) : List Nat → Nat → List Nat × Bool
  | [], _ => (acc, true)
  | _ :: _, 0 => (acc, false)
  | token :: rest, fuel + 1 =>
    let lit0 := token / 16
    let ext :=
      if lit0 = 15 then lzVarLen rest rest.length else (0, rest, true)
    if !ext.2.2 then (acc, false)
    else
      let litLen := lit0 + ext.1
      let src := ext.2.1
      if src.length < litLen then (acc, false)
      else
        let acc1 := acc ++ src.take litLen
        let src1 := src.drop litLen
        match src1 with
        | [] => (acc1, true)
        | [_] => (acc1, false)
        | o1 :: o2 :: src2 =>
          let offset := o1 + 256 * o2
          if offset = 0 ∨ acc1.length < offset then (acc1, false)
          else
            let mext :=
              if token % 16 = 15 then lzVarLen src2 src2.length else (0, src2, true)
            if !mext.2.2 then (acc1, false)
            else
              let matchLen := token % 16 + mext.1 + 4
              lz4Block (lzCopy matchLen offset acc1) mext.2.1 fuel

/-- Modelled from the spec: the LZ4 frame block loop (4-byte
little-endian size word, high bit marks an uncompressed block, zero
terminates the frame).  When FLG announces block checksums each block
is followed by the little-endian xxHash32 of its stored bytes, and
when FLG announces a content checksum the end mark is followed by the
little-endian xxHash32 of the bytes this frame decoded (the output
beyond the first n0 bytes); a mismatch of either aborts the frame as
lz4 -d does, before emitting the offending block. -/
def lz4Blocks (flg n0 : Nat) (acc : List Nat) : List Nat → Nat → List Nat × Bool
  | s1 :: s2 :: s3 :: s4 :: rest, fuel + 1 =>
    let w := s1 + 256 * s2 + 65536 * s3 + 16777216 * s4
    if w = 0 then
      -- end mark; validate the content checksum when announced
      if flg &&& 4 ≠ 0 then
        if rest.length < 4 then (acc, false)
        else if leW (rest.take 4) = xxh32 0 (acc.drop n0) then (acc, (rest.drop 4).isEmpty)
        else (acc, false)
      else (acc, rest.isEmpty)
    else
      let size := w % 2147483648
      let raw := 2147483648 ≤ w
      if rest.length < size then (acc, false)
      else
        let body := rest.take size
        let rest1 := rest.drop size
        let rest2 := if flg &&& 16 ≠ 0 then rest1.drop 4 else rest1
        if flg &&& 16 ≠ 0 ∧ (rest1.length < 4 ∨ leW (rest1.take 4) ≠ xxh32 0 body) then
          (acc, false)
        else if raw then lz4Blocks flg n0 (acc ++ body) rest2 fuel
        else
          let r := lz4Block acc body body.length
          if r.2 then lz4Blocks flg n0 r.1 rest2 fuel else (r.1, false)
  | _, _ => (acc, false)

/-- Modelled from the spec: decode one LZ4 frame header and its blocks.
The byte after the frame descriptor must equal the second byte of the
xxHash32 (seed 0) of the descriptor bytes (FLG, BD, and the optional
content-size and dictionary-id fields); lz4 -d aborts the frame on a
header checksum mismatch before decoding any block. -/
def lz4Frame (acc : List Nat) (bs : List Nat) : List Nat × Bool :=
  match bs with
  | 4 :: 34 :: 77 :: 24 :: flg :: bd :: rest =>
    if flg / 64 ≠ 1 then (acc, false)
    else if flg &&& 8 ≠ 0 ∧ rest.length < 8 then (acc, false)
    else
      let csz := if flg &&& 8 ≠ 0 then rest.take 8 else []
      let r1 := if flg &&& 8 ≠ 0 then rest.drop 8 else rest
      if flg &&& 1 ≠ 0 ∧ r1.length < 4 then (acc, false)
      else
        let did := if flg &&& 1 ≠ 0 then r1.take 4 else []
        let r2 := if flg &&& 1 ≠ 0 then r1.drop 4 else r1
        match r2 with
        | [] => (acc, false)
        | hc :: blocks =>
          if hc = xxh32 0 (flg :: bd :: (csz ++ did)) / 256 % 256 then
            lz4Blocks flg acc.length acc blocks blocks.length
          else (acc, false)
  | _ => (acc, false)

/-- Modelled from the spec: the external lz4 -d subprocess wrapped by
pkg/util.  It emits everything decoded before any failure; failures are
only printed by the wrapper and its Write and Close errors are ignored
by the driver, so only the emitted bytes matter to the pipeline. -/
def lz4Dec (bs : List Nat) : List Nat :=
  (lz4Frame [] bs).1

/-- A byte stream for the decoder: the byte count and the bytes packed
little-endian into one number (byte i is `dat / 256^i % 256`).  This
packing keeps kernel evaluation of the decoder to bignum arithmetic. -/
structure ByteStr where
  len : Nat
  dat : Nat
  deriving DecidableEq, Repr

/-- Pack a byte list little-endian. -/
def packBs (bs : List Nat) : Nat :=
  bs.foldr (fun b acc => b % 256 + 256 * acc) 0

/-- Unpack the first k bytes of a packed number. -/
def unpackBs : Nat → Nat → List Nat
  | 0, _ => []
  | k + 1, n => n % 256 :: unpackBs k (n / 256)

/-- The packed stream of a byte list. -/
def toStream (bs : List Nat) : ByteStr :=
  { len := bs.length, dat := packBs bs }

/-- Drop the first k bytes of a stream. -/
def strDrop (s : ByteStr) (k : Nat) : ByteStr :=
  { len := s.len - k, dat := s.dat / 256 ^ k }

/-- The first k bytes of a stream, packed (a short stream yields what
is there, as a Go Read does). -/
def strTake (s : ByteStr) (k : Nat) : Nat :=
  s.dat % 256 ^ k

/-- Byte i of a stream. -/
def strByte (s : ByteStr) (i : Nat) : Nat :=
  s.dat / 256 ^ i % 256

/-- Decoder and stream errors (part 004).  `eof` models io.EOF returned
by a read that starts at the very end of the stream; `fuelOut` is the
exhaustion of the recursion bound and is unreachable for the bounds
used below. -/
inductive DErr
  | eof
  | fuelOut
  | incompleteMagic
  | invalidMagic (got : Nat)
  | incompleteMagicHash
  | invalidMagicHash (got : Nat)
  | incompleteLengthField
  | incompleteData
  | incompleteLengthByte
  | integerTooLarge
  | incompleteIntegerData
  | unknownTypeByte (b : Nat)
  | dictKeyNotString
  | expectedDictionary
  | missingTypeField
  deriving DecidableEq, Repr

/-- Decoded wire objects: null, integer, byte string, text string and
ordered-map (stored as the Go map the decoder builds: an association
list where inserting an existing key overwrites its value in place). -/
inductive Obj
  | onull
  | oint (n : Int)
  | obytes (bs : List Nat)
  | ostr (s : List Nat)
  | odict (m : List (List Nat × Obj))

/-- Go map assignment: overwrite the existing entry or append. -/
def mapInsert (m : List (List Nat × Obj)) (k : List Nat) (v : Obj) : List (List Nat × Obj) :=
  if m.any (fun p => p.1 == k) then m.map (fun p => if p.1 == k then (k, v) else p)
  else m ++ [(k, v)]

/-- Go map lookup. -/
def mapGet (m : List (List Nat × Obj)) (k : List Nat) : Option Obj :=
  (m.find? (fun p => p.1 == k)).map Prod.snd

/-- The container magic (part 004). -/
def MagicHeader : List Nat := strBytes "__CLOUDSYNC_ENC__"

/-- Source `ValidateHeader` (part 004): consume the 17 magic bytes and
the 32 hex characters of the MD5 of the magic; a read at end of stream
yields io.EOF, a short read an incomplete-header error. -/
def ValidateHeader (rem : ByteStr) : Except DErr ByteStr :=
  if rem.len = 0 then Except.error DErr.eof
  else if rem.len < 17 then Except.error DErr.incompleteMagic
  else if strTake rem 17 ≠ packBs MagicHeader then Except.error (DErr.invalidMagic (strTake rem 17))
  else
    let r1 := strDrop rem 17
    if r1.len = 0 then Except.error DErr.eof
    else if r1.len < 32 then Except.error DErr.incompleteMagicHash
    else if strTake r1 32 ≠ packBs (hexEncode (md5Bytes MagicHeader)) then
      Except.error (DErr.invalidMagicHash (strTake r1 32))
    else Except.ok (strDrop r1 32)

/-- Source `readBytes` (part 004): 2-byte big-endian length, then the
payload.  A read that starts at end of stream returns io.EOF; a partial
read is an incomplete-field error. -/
def readBytes (rem : ByteStr) : Except DErr (List Nat × ByteStr) :=
  if rem.len = 0 then Except.error DErr.eof
  else if rem.len < 2 then Except.error DErr.incompleteLengthField
  else
    let len := strByte rem 0 * 256 + strByte rem 1
    let r1 := strDrop rem 2
    if r1.len = 0 ∧ len ≠ 0 then Except.error DErr.eof
    else if r1.len < len then Except.error DErr.incompleteData
    else Except.ok (unpackBs len r1.dat, strDrop r1 len)

/-- Truncation of a nonnegative big-endian accumulator to a signed Go
int (64-bit two's complement). -/
def toInt64 (n : Nat) : Int :=
  if n % 18446744073709551616 < 9223372036854775808 then
    ((n % 18446744073709551616 : Nat) : Int)
  else ((n % 18446744073709551616 : Nat) : Int) - 18446744073709551616

/-- One step of the Go accumulation `result = result<<8 | int(data[i])`
on a 64-bit signed int. -/
def goShl8Or (r : Int) (b : Nat) : Int :=
  toInt64 ((r % 18446744073709551616).toNat * 256 + b)

/-- Source `readInt` (part 004): a 1-byte length (more than 8 is
rejected, 0 yields zero without reading further), then that many bytes
folded big-endian into a Go int. -/
def readInt (rem : ByteStr) : Except DErr (Int × ByteStr) :=
  if rem.len = 0 then Except.error DErr.eof
  else
    let len := strByte rem 0
    let r1 := strDrop rem 1
    if 8 < len then Except.error DErr.integerTooLarge
    else if len = 0 then Except.ok (0, r1)
    else if r1.len = 0 then Except.error DErr.eof
    else if r1.len < len then Except.error DErr.incompleteIntegerData
    else Except.ok ((unpackBs len r1.dat).foldl goShl8Or 0, strDrop r1 len)

mutual

/-- Source `ReadObject` (part 004), with a recursion bound: read a tag
byte and decode one object.  io.EOF surfaces when the tag read starts
at end of stream. -/
def readObjectF : Nat → ByteStr → Except DErr (Obj × ByteStr)
  | 0, _ => Except.error DErr.fuelOut
  | fuel + 1, rem =>
    if rem.len = 0 then Except.error DErr.eof
    else
      let b := strByte rem 0
      let r1 := strDrop rem 1
      if b = 66 then
        match readDictF fuel [] r1 with
        | Except.error e => Except.error e
        | Except.ok p => Except.ok (Obj.odict p.1, p.2)
      else if b = 64 then Except.ok (Obj.onull, r1)
      else if b = 17 then
        match readBytes r1 with
        | Except.error e => Except.error e
        | Except.ok p => Except.ok (Obj.obytes p.1, p.2)
      else if b = 16 then
        match readBytes r1 with
        | Except.error e => Except.error e
        | Except.ok p => Except.ok (Obj.ostr p.1, p.2)
      else if b = 1 then
        match readInt r1 with
        | Except.error e => Except.error e
        | Except.ok p => Except.ok (Obj.oint p.1, p.2)
      else Except.error (DErr.unknownTypeByte b)

/-- Source `readOrderedDict` (part 004): read key and value objects
into a Go map until a null appears in key position; keys must be text
strings. -/
def readDictF : Nat → List (List Nat × Obj) → ByteStr → Except DErr (List (List Nat × Obj) × ByteStr)
  | 0, _, _ => Except.error DErr.fuelOut
  | fuel + 1, acc, rem =>
    match readObjectF fuel rem with
    | Except.error e => Except.error e
    | Except.ok (Obj.onull, rest) => Except.ok (acc, rest)
    | Except.ok (Obj.ostr k, rest) =>
      match readObjectF fuel rest with
      | Except.error e => Except.error e
      | Except.ok (v, rest2) => readDictF fuel (mapInsert acc k v) rest2
    | Except.ok _ => Except.error DErr.dictKeyNotString

end

/-- Items sent over the channel by `DecodeCSEncStream` (part 004):
header key-value pairs, ciphertext chunks, or a decode error. -/
inductive Item
  | kv (key : List Nat) (value : Obj)
  | dataI (bs : List Nat)
  | errI (e : DErr)

/-- The emission step of the decode goroutine for one decoded top-level
map.  The Go code ranges over the map, whose iteration order is
unspecified and randomized at runtime; the model emits the entries in
first-insertion order (see claim C7). -/
def emitFromDict (m : List (List Nat × Obj)) : Except DErr (List Item) :=
  match mapGet m (strBytes "type") with
  | some (Obj.ostr t) =>
    if t = strBytes "metadata" then
      Except.ok ((m.filter (fun p => p.1 != strBytes "type")).map (fun p => Item.kv p.1 p.2))
    else if t = strBytes "data" then
      match mapGet m (strBytes "data") with
      | some (Obj.obytes bs) => Except.ok [Item.dataI bs]
      | _ => Except.ok []
    else Except.ok []
  | _ => Except.error DErr.missingTypeField

/-- The decode goroutine loop (part 004): read objects until a clean
io.EOF (silently ending the stream), emitting items; any other error is
sent as a final error item.  The bound decreases once per object while
every successful object read consumes at least one byte. -/
def decodeLoop : Nat → ByteStr → List Item
  | 0, _ => [Item.errI DErr.fuelOut]
  | fuel + 1, rem =>
    match readObjectF (2 * rem.len + 4) rem with
    | Except.error DErr.eof => []
    | Except.error e => [Item.errI e]
    | Except.ok (Obj.onull, rest) => decodeLoop fuel rest
    | Except.ok (Obj.odict m, rest) =>
      match emitFromDict m with
      | Except.error e => [Item.errI e]
      | Except.ok items => items ++ decodeLoop fuel rest
    | Except.ok _ => [Item.errI DErr.expectedDictionary]

/-- Source `DecodeCSEncStream` (part 004): validate the preamble, then
decode the object stream into items. -/
def DecodeCSEncStream (input : List Nat) : Except DErr (List Item) :=
  match ValidateHeader (toStream input) with
  | Except.error e => Except.error e
  | Except.ok rest => Except.ok (decodeLoop (rest.len + 1) rest)

/-- Source `DecryptConfig` (part 005): optional password, private key
and public key (nil slices are `none`). -/
structure DecryptConfig where
  password : Option (List Nat)
  privateKey : Option (List Nat)
  publicKey : Option (List Nat)
  deriving DecidableEq, Repr

/-- The model of Go cipher.BlockMode for CBC decryption: the AES key
together with the current chain value, as produced by
`DecryptorWithPassword` and updated by every CryptBlocks call. -/
def DecryptorWithPassword (password salt : List Nat) : List Nat × List Nat :=
  CSENCPBKDF password salt

/-- The local variables of source `DecryptStreamWithFilename`
(part 005) that live across loop iterations.  `lzIn` collects the bytes
written to the LZ4 decompressor.  `expected` is expectedMD5Digest,
`skHash` is sessionKeyHash, `chunk` is decryptedChunk. -/
structure DState where
  sessionKey : Option (List Nat)
  decryptor : Option (List Nat × List Nat)
  md5On : Bool
  expected : List Nat
  encKey1 : Option (List Nat)
  encKey2 : Option (List Nat)
  salt : List Nat
  skHash : List Nat
  chunk : Option (List Nat)
  lzIn : List Nat
  deriving DecidableEq, Repr

/-- The zero values of the driver locals. -/
def initState : DState :=
  { sessionKey := none, decryptor := none, md5On := false, expected := [],
    encKey1 := none, encKey2 := none, salt := [], skHash := [],
    chunk := none, lzIn := [] }

/-- Errors returned by source `DecryptStreamWithFilename` (part 005),
one constructor per return site. -/
inductive GErr
  | decodeInit (e : DErr)
  | streamItem (e : DErr)
  | unexpectedDigest
  | encKey1Decode
  | encKey2Decode
  | passwordHashMismatch
  | majorTypeBad
  | minorTypeBad
  | unsupportedVersion (a b : Int)
  | pwUnwrap (e : StripErr)
  | pkUnwrap
  | notEnoughInfo
  | sessionKeyHashMismatch
  | stripFinal (e : StripErr)
  deriving DecidableEq, Repr

/-- Result of processing one stream item: the next state, a Go error
return, or a runtime panic; the carried state holds the values of the
locals at the moment of returning. -/
inductive StepRes
  | next (st : DState)
  | fail (st : DState) (e : GErr)
  | panicked (st : DState) (k : PanicKind)
  deriving DecidableEq, Repr

/-- The RSA-OAEP private-key decryption (source
`DecryptWithPrivateKey`), kept as a parameter of the pipeline: it maps
(ciphertext, private key) to the decrypted session key or an error. -/
def RsaDec : Type := List Nat → List Nat → Option (List Nat)

/-- Source `DecryptWithPassword` wrapped for the session-key unwrap
(part 005 lines 317-331): the password path fires when the config has a
password and enc_key1 decoded; otherwise the private-key path fires
when the config has a private key and enc_key2 decoded; otherwise no
session key is derived. -/
inductive SessionKeyOut
  | derived (sk : List Nat)
  | missing
  | fail (e : GErr)
  | panicked (k : PanicKind)
  deriving DecidableEq, Repr

/-- The session-key derivation step executed when the first data chunk
arrives (part 005 lines 317-331). -/
def deriveSessionKey (rsa : RsaDec) (cfg : DecryptConfig) (st : DState) : SessionKeyOut :=
  if cfg.password.isSome ∧ st.encKey1.isSome then
    match DecryptWithPassword (st.encKey1.getD []) (cfg.password.getD []) st.salt with
    | StripOut.ok sk => SessionKeyOut.derived sk
    | StripOut.err e => SessionKeyOut.fail (GErr.pwUnwrap e)
    | StripOut.panicked k => SessionKeyOut.panicked k
  else if cfg.privateKey.isSome ∧ st.encKey2.isSome then
    match rsa (st.encKey2.getD []) (cfg.privateKey.getD []) with
    | some sk => SessionKeyOut.derived sk
    | none => SessionKeyOut.fail GErr.pkUnwrap
  else SessionKeyOut.missing

/-- The session-key hash verification (part 005 lines 334-346): when a
session_key_hash header arrived, its first min(10, length) bytes are
the salt of a salted MD5 that must match. -/
def checkSessionKeyHash (skh sk : List Nat) : Bool :=
  if skh.isEmpty then true
  else SaltedHashOf (skh.take (min skh.length 10)) sk == skh

/-- The decryptor construction (part 005 lines 348-366): when the salt
header is non-empty the session key is first hex-decoded, falling back
to the raw bytes when hex decoding fails; otherwise the raw bytes are
used; either way through DecryptorWithPassword with an empty salt. -/
def mkDecryptor (salt sk : List Nat) : List Nat × List Nat :=
  if salt.length > 0 then
    match hexDecode sk with
    | none => DecryptorWithPassword sk []
    | some h => DecryptorWithPassword h []
  else DecryptorWithPassword sk []

/-- The tail of the data branch (part 005 lines 372-377): forward the
held-back chunk to the decompressor, then CBC-decrypt the new chunk
(Go CryptBlocks panics when its length is not a multiple of 16),
holding the plaintext back and advancing the CBC chain. -/
def decryptData (st : DState) (key iv bs : List Nat) : StepRes :=
  let st1 :=
    match st.chunk with
    | some c => { st with lzIn := st.lzIn ++ c }
    | none => st
  if bs.length % 16 ≠ 0 then StepRes.panicked st1 PanicKind.notFullBlocks
  else
    let r := cbcDecLoop (aesExpandKey key) iv bs
    StepRes.next { st1 with decryptor := some (key, r.2), chunk := some r.1 }

/-- Processing of one data item (part 005 lines 313-378). -/
def dataStep (rsa : RsaDec) (cfg : DecryptConfig) (st : DState) (bs : List Nat) : StepRes :=
  match st.decryptor with
  | some p => decryptData st p.1 p.2 bs
  | none =>
    match deriveSessionKey rsa cfg st with
    | SessionKeyOut.panicked k => StepRes.panicked st k
    | SessionKeyOut.fail e => StepRes.fail st e
    | SessionKeyOut.missing => StepRes.fail st GErr.notEnoughInfo
    | SessionKeyOut.derived sk =>
      if !checkSessionKeyHash st.skHash sk then StepRes.fail st GErr.sessionKeyHashMismatch
      else
        let p := mkDecryptor st.salt sk
        decryptData { st with sessionKey := some sk, decryptor := some p } p.1 p.2 bs

/-- Processing of one header key-value item (part 005 lines 230-312). -/
def headerStep (cfg : DecryptConfig) (st : DState) (k : List Nat) (v : Obj) : StepRes :=
  if k = strBytes "digest" then
    match v with
    | Obj.ostr s =>
      if s = strBytes "md5" then StepRes.next { st with md5On := true }
      else StepRes.fail st GErr.unexpectedDigest
    | _ => StepRes.fail st GErr.unexpectedDigest
  else if k = strBytes "enc_key1" then
    match v with
    | Obj.ostr s =>
      match base64Decode s with
      | some bs => StepRes.next { st with encKey1 := some bs }
      | none => StepRes.fail st GErr.encKey1Decode
    | _ => StepRes.next st
  else if k = strBytes "enc_key2" then
    match v with
    | Obj.ostr s =>
      match base64Decode s with
      | some bs => StepRes.next { st with encKey2 := some bs }
      | none => StepRes.fail st GErr.encKey2Decode
    | _ => StepRes.next st
  else if k = strBytes "key1_hash" then
    if cfg.password.isSome ∧ st.encKey1.isSome then
      match v with
      | Obj.ostr s =>
        if s.length < 10 then StepRes.panicked st PanicKind.sliceBounds
        else if SaltedHashOf (s.take 10) (cfg.password.getD []) = s then StepRes.next st
        else StepRes.fail st GErr.passwordHashMismatch
      | _ => StepRes.panicked st PanicKind.typeAssertion
    else StepRes.next st
  else if k = strBytes "salt" then
    match v with
    | Obj.ostr s => StepRes.next { st with salt := s }
    | _ => StepRes.next st
  else if k = strBytes "session_key_hash" then
    match v with
    | Obj.ostr s => StepRes.next { st with skHash := s }
    | _ => StepRes.next st
  else if k = strBytes "version" then
    match v with
    | Obj.odict m =>
      match mapGet m (strBytes "major") with
      | some (Obj.oint a) =>
        match mapGet m (strBytes "minor") with
        | some (Obj.oint b) =>
          if a ≠ 1 ∧ a ≠ 3 then StepRes.fail st (GErr.unsupportedVersion a b)
          else StepRes.next st
        | _ => StepRes.fail st GErr.minorTypeBad
      | _ => StepRes.fail st GErr.majorTypeBad
    | _ => StepRes.next st
  else if k = strBytes "file_md5" then
    match v with
    | Obj.ostr s => StepRes.next { st with expected := s }
    | _ => StepRes.next st
  else StepRes.next st

/-- Processing of one stream item: a forwarded decode error returns it,
header items update the locals, data items decrypt. -/
def procItem (rsa : RsaDec) (cfg : DecryptConfig) (st : DState) : Item → StepRes
  | Item.errI e => StepRes.fail st (GErr.streamItem e)
  | Item.kv k v => headerStep cfg st k v
  | Item.dataI bs => dataStep rsa cfg st bs

/-- Result of the item loop: the locals at exit and, when the loop
returned early, the error or panic. -/
structure LoopOut where
  st : DState
  halt : Option (GErr ⊕ PanicKind)
  deriving DecidableEq, Repr

/-- The main loop of `DecryptStreamWithFilename` over the decoded
items. -/
def runLoop (rsa : RsaDec) (cfg : DecryptConfig) : DState → List Item → LoopOut
  | st, [] => { st := st, halt := none }
  | st, it :: its =>
    match procItem rsa cfg st it with
    | StepRes.next st2 => runLoop rsa cfg st2 its
    | StepRes.fail st2 e => { st := st2, halt := some (Sum.inl e) }
    | StepRes.panicked st2 k => { st := st2, halt := some (Sum.inr k) }

/-- Result of a whole decryption: `halt` is `none` on success, or the
error or panic; `out` is everything the output sink received (the
deferred Close flushes the decompressor even on early returns); `st`
holds the locals at return; `digestMatched` records the comparison of
the trailing file_md5 header against the running digest, which the
code computes and ignores. -/
structure DResult where
  halt : Option (GErr ⊕ PanicKind)
  out : List Nat
  st : DState
  digestMatched : Option Bool
  deriving DecidableEq, Repr

/-- The finalization after the loop (part 005 lines 381-398): strip the
held-back chunk, flush, and compare the MD5 of the emitted plaintext
with the expected digest, ignoring a mismatch. -/
def finishRun (lr : LoopOut) : DResult :=
  match lr.halt with
  | some h => { halt := some h, out := lz4Dec lr.st.lzIn, st := lr.st, digestMatched := none }
  | none =>
    match lr.st.chunk with
    | some c =>
      match StripPKCS7Padding c with
      | StripOut.ok p =>
        let st2 := { lr.st with lzIn := lr.st.lzIn ++ p }
        let out := lz4Dec st2.lzIn
        { halt := none, out := out, st := st2,
          digestMatched :=
            if st2.md5On ∧ st2.expected ≠ [] then
              some (hexEncode (md5Bytes out) == st2.expected)
            else none }
      | StripOut.err e =>
        { halt := some (Sum.inl (GErr.stripFinal e)), out := lz4Dec lr.st.lzIn,
          st := lr.st, digestMatched := none }
      | StripOut.panicked k =>
        { halt := some (Sum.inr k), out := lz4Dec lr.st.lzIn,
          st := lr.st, digestMatched := none }
    | none =>
      let out := lz4Dec lr.st.lzIn
      { halt := none, out := out, st := lr.st,
        digestMatched :=
          if lr.st.md5On ∧ lr.st.expected ≠ [] then
            some (hexEncode (md5Bytes out) == lr.st.expected)
          else none }

/-- Run the driver over a list of already-decoded items. -/
def DecryptItems (rsa : RsaDec) (cfg : DecryptConfig) (items : List Item) : DResult :=
  finishRun (runLoop rsa cfg initState items)

/-- Source `DecryptStreamWithFilename` (part 005): decode the container
byte stream and run the decryption driver over the items.  The
filename argument of the Go function only decorates error messages and
is omitted. -/
def DecryptStreamWithFilename (rsa : RsaDec) (cfg : DecryptConfig) (input : List Nat) : DResult :=
  match DecodeCSEncStream input with
  | Except.error e =>
    { halt := some (Sum.inl (GErr.decodeInit e)), out := [], st := initState,
      digestMatched := none }
  | Except.ok items => DecryptItems rsa cfg items

/-- Observer: the (major, minor) pairs of well-formed version headers
among the decoded items, used to state container-level claims. -/
def versionsOf (items : List Item) : List (Int × Int) :=
  items.filterMap fun it =>
    match it with
    | Item.kv k (Obj.odict m) =>
      if k = strBytes "version" then
        match mapGet m (strBytes "major"), mapGet m (strBytes "minor") with
        | some (Obj.oint a), some (Obj.oint b) => some (a, b)
        | _, _ => none
      else none
    | _ => none

/-- A concrete valid container: version major 1, no salt header,
digest md5, enc_key1 wrapping a session key under password "pw", a
correct trailing file_md5, and one data chunk whose plaintext is the
LZ4 frame of "hello". -/
def contA : List Nat := [95, 95, 67, 76, 79, 85, 68, 83, 89, 78, 67, 95, 69, 78, 67, 95, 95, 100, 56, 100, 54, 98, 97, 55, 98, 57, 100, 102, 48, 50, 101, 102, 51, 57, 97, 51, 51, 101, 102, 57, 49, 50, 97, 57, 49, 100, 99, 53, 54, 66, 16, 0, 4, 116, 121, 112, 101, 16, 0, 8, 109, 101, 116, 97, 100, 97, 116, 97, 16, 0, 7, 118, 101, 114, 115, 105, 111, 110, 66, 16, 0, 5, 109, 97, 106, 111, 114, 1, 1, 1, 16, 0, 5, 109, 105, 110, 111, 114, 1, 0, 64, 16, 0, 6, 100, 105, 103, 101, 115, 116, 16, 0, 3, 109, 100, 53, 16, 0, 8, 101, 110, 99, 95, 107, 101, 121, 49, 16, 0, 64, 121, 76, 106, 57, 86, 113, 106, 111, 122, 79, 56, 112, 57, 98, 106, 89, 73, 119, 115, 78, 97, 110, 69, 80, 75, 110, 56, 99, 121, 105, 48, 103, 74, 54, 83, 116, 47, 101, 66, 119, 52, 82, 83, 86, 105, 97, 47, 68, 72, 82, 48, 99, 106, 55, 53, 105, 117, 101, 102, 79, 78, 57, 80, 109, 16, 0, 8, 102, 105, 108, 101, 95, 109, 100, 53, 16, 0, 32, 53, 100, 52, 49, 52, 48, 50, 97, 98, 99, 52, 98, 50, 97, 55, 54, 98, 57, 55, 49, 57, 100, 57, 49, 49, 48, 49, 55, 99, 53, 57, 50, 64, 66, 16, 0, 4, 116, 121, 112, 101, 16, 0, 4, 100, 97, 116, 97, 16, 0, 4, 100, 97, 116, 97, 17, 0, 32, 178, 123, 140, 214, 199, 245, 154, 233, 8, 43, 243, 44, 21, 201, 238, 218, 156, 174, 116, 243, 71, 247, 212, 124, 205, 160, 11, 172, 206, 104, 211, 3, 64]

/-- A concrete container with version major 3 and no salt header whose
session key is a 32-character hex string. -/
def contB : List Nat := [95, 95, 67, 76, 79, 85, 68, 83, 89, 78, 67, 95, 69, 78, 67, 95, 95, 100, 56, 100, 54, 98, 97, 55, 98, 57, 100, 102, 48, 50, 101, 102, 51, 57, 97, 51, 51, 101, 102, 57, 49, 50, 97, 57, 49, 100, 99, 53, 54, 66, 16, 0, 4, 116, 121, 112, 101, 16, 0, 8, 109, 101, 116, 97, 100, 97, 116, 97, 16, 0, 7, 118, 101, 114, 115, 105, 111, 110, 66, 16, 0, 5, 109, 97, 106, 111, 114, 1, 1, 3, 16, 0, 5, 109, 105, 110, 111, 114, 1, 0, 64, 16, 0, 8, 101, 110, 99, 95, 107, 101, 121, 49, 16, 0, 64, 67, 106, 75, 80, 82, 75, 106, 48, 79, 119, 89, 83, 86, 75, 43, 107, 77, 66, 90, 67, 107, 87, 85, 73, 99, 108, 53, 71, 79, 120, 52, 75, 43, 51, 85, 108, 47, 81, 113, 102, 97, 54, 56, 66, 82, 53, 73, 77, 87, 70, 111, 72, 47, 87, 118, 77, 120, 121, 65, 80, 117, 105, 74, 121, 64, 66, 16, 0, 4, 116, 121, 112, 101, 16, 0, 4, 100, 97, 116, 97, 16, 0, 4, 100, 97, 116, 97, 17, 0, 32, 34, 68, 153, 8, 227, 197, 47, 5, 229, 2, 167, 41, 175, 246, 2, 124, 96, 212, 85, 165, 165, 134, 139, 87, 232, 32, 35, 131, 206, 44, 199, 126, 64]

/-- The session key wrapped inside contB (ASCII hex characters). -/
def skB : List Nat := [48, 48, 49, 49, 50, 50, 51, 51, 52, 52, 53, 53, 54, 54, 55, 55, 56, 56, 57, 57, 97, 97, 98, 98, 99, 99, 100, 100, 101, 101, 102, 102]

/-- A concrete container whose second metadata map carries a key1_hash
value shorter than 10 characters, after a decodable enc_key1. -/
def contP : List Nat := [95, 95, 67, 76, 79, 85, 68, 83, 89, 78, 67, 95, 69, 78, 67, 95, 95, 100, 56, 100, 54, 98, 97, 55, 98, 57, 100, 102, 48, 50, 101, 102, 51, 57, 97, 51, 51, 101, 102, 57, 49, 50, 97, 57, 49, 100, 99, 53, 54, 66, 16, 0, 4, 116, 121, 112, 101, 16, 0, 8, 109, 101, 116, 97, 100, 97, 116, 97, 16, 0, 8, 101, 110, 99, 95, 107, 101, 121, 49, 16, 0, 4, 65, 65, 65, 65, 64, 66, 16, 0, 4, 116, 121, 112, 101, 16, 0, 8, 109, 101, 116, 97, 100, 97, 116, 97, 16, 0, 9, 107, 101, 121, 49, 95, 104, 97, 115, 104, 16, 0, 5, 115, 104, 111, 114, 116, 64]

/-- Like contP but the key1_hash value is an integer, not a string. -/
def contP2 : List Nat := [95, 95, 67, 76, 79, 85, 68, 83, 89, 78, 67, 95, 69, 78, 67, 95, 95, 100, 56, 100, 54, 98, 97, 55, 98, 57, 100, 102, 48, 50, 101, 102, 51, 57, 97, 51, 51, 101, 102, 57, 49, 50, 97, 57, 49, 100, 99, 53, 54, 66, 16, 0, 4, 116, 121, 112, 101, 16, 0, 8, 109, 101, 116, 97, 100, 97, 116, 97, 16, 0, 8, 101, 110, 99, 95, 107, 101, 121, 49, 16, 0, 4, 65, 65, 65, 65, 64, 66, 16, 0, 4, 116, 121, 112, 101, 16, 0, 8, 109, 101, 116, 97, 100, 97, 116, 97, 16, 0, 9, 107, 101, 121, 49, 95, 104, 97, 115, 104, 1, 1, 5, 64]

/-- A concrete container with one metadata map whose encoded pair list
is (type, metadata), (a, "1"), (b, "2"), (a, "3"). -/
def contQ : List Nat := [95, 95, 67, 76, 79, 85, 68, 83, 89, 78, 67, 95, 69, 78, 67, 95, 95, 100, 56, 100, 54, 98, 97, 55, 98, 57, 100, 102, 48, 50, 101, 102, 51, 57, 97, 51, 51, 101, 102, 57, 49, 50, 97, 57, 49, 100, 99, 53, 54, 66, 16, 0, 4, 116, 121, 112, 101, 16, 0, 8, 109, 101, 116, 97, 100, 97, 116, 97, 16, 0, 1, 97, 16, 0, 1, 49, 16, 0, 1, 98, 16, 0, 1, 50, 16, 0, 1, 97, 16, 0, 1, 51, 64]

/-- An RSA oracle that always fails; the private-key path is never
exercised by the concrete containers. -/
def rsaNone : RsaDec := fun _ _ => none

/-- The password-only configuration used by the concrete containers. -/
def cfgPw : DecryptConfig :=
  { password := some (strBytes "pw"), privateKey := none, publicKey := none }

/-- The decoded item list of a container (empty when the preamble is
rejected). -/
def decodedItems (input : List Nat) : List Item :=
  match DecodeCSEncStream input with
  | Except.ok items => items
  | Except.error _ => []

/-- Replace the value of every file_md5 header item. -/
def setFileMd5 (v : List Nat) (items : List Item) : List Item :=
  items.map fun it =>
    match it with
    | Item.kv k _ => if k = strBytes "file_md5" then Item.kv k (Obj.ostr v) else it
    | _ => it

/-- Big-endian unsigned value of a byte list. -/
def beNat (bs : List Nat) : Nat := bs.foldl (fun a b => a * 256 + b) 0

/-- The EVP_BytesToKey block sequence as the spec describes it: block 0
is empty, block i+1 is MD5 iterated count times on
(block i ++ password ++ salt). -/
def evpBlock (password salt : List Nat) (count : Nat) : Nat → List Nat
  | 0 => []
  | i + 1 => iterMD5 count (evpBlock password salt count i ++ password ++ salt)

/-- The first m spec blocks concatenated. -/
def evpCat (password salt : List Nat) (count m : Nat) : List Nat :=
  (List.range m).flatMap fun i => evpBlock password salt count (i + 1)

/-- Claim C1 as stated: the session-key material fed to the
KDF-with-empty-salt step that produces the data-chunk AES key is
decided by the version major carried by the container: raw session-key
bytes for major 1, hex-decoded bytes for major 3.  The installed
decryptor key is observed in the driver locals. -/
def C1Stated : Prop :=
  ∀ (rsa : RsaDec) (cfg : DecryptConfig) (input : List Nat)
    (sk k iv : List Nat) (mi : Int),
    (DecryptStreamWithFilename rsa cfg input).st.sessionKey = some sk →
    (DecryptStreamWithFilename rsa cfg input).st.decryptor = some (k, iv) →
    (versionsOf (decodedItems input) = [(1, mi)] → k = (CSENCPBKDF sk []).1) ∧
    (versionsOf (decodedItems input) = [(3, mi)] →
      ∀ hx, hexDecode sk = some hx → k = (CSENCPBKDF hx []).1)

/-- Claim C9 as stated: the integer decoder returns the big-endian
unsigned value of the L body bytes (0 < L ≤ 8), returns 0 for L = 0
consuming nothing further, and rejects L > 8. -/
def C9Stated : Prop :=
  (∀ (L : Nat) (body rest : List Nat), 0 < L → L ≤ 8 → body.length = L →
    (∀ b ∈ body, b < 256) →
    readInt (toStream (L :: (body ++ rest))) =
      Except.ok ((beNat body : Int), strDrop (toStream (L :: (body ++ rest))) (1 + L))) ∧
  (∀ rest : List Nat, readInt (toStream (0 :: rest)) =
      Except.ok (0, strDrop (toStream (0 :: rest)) 1)) ∧
  (∀ (L : Nat) (rest : List Nat), 8 < L → L < 256 →
    readInt (toStream (L :: rest)) = Except.error DErr.integerTooLarge)

/-- Keys and strings projected from items of a metadata container:
header items whose value is a text string. -/
def kvStrs (items : List Item) : List (List Nat × List Nat) :=
  items.filterMap fun it =>
    match it with
    | Item.kv k (Obj.ostr s) => some (k, s)
    | _ => none

/-- The raw session key wrapped in contA. -/
def skAraw : List Nat := [48, 49, 50, 51, 52, 53, 54, 55, 56, 57, 97, 98, 99, 100, 101, 102, 48, 49, 50, 51, 52, 53, 54, 55, 56, 57, 97, 98, 99, 100, 101, 102]

/-- The AES-CBC ciphertext of the padded contA session key under the
password KDF (the base64 payload of its enc_key1 header). -/
def encA : List Nat := [200, 184, 253, 86, 168, 232, 204, 239, 41, 245, 184, 216, 35, 11, 13, 106, 113, 15, 42, 127, 28, 202, 45, 32, 39, 164, 173, 253, 224, 112, 225, 20, 149, 137, 175, 195, 29, 29, 28, 143, 190, 98, 185, 231, 206, 55, 211, 230]

/-- The state of the driver locals after contA-style headers with only
enc_key1 decoded, used to witness the unwrap-step theorems. -/
def stW : DState := { initState with encKey1 := some encA }

/-- The hex-decoded bytes of skB. -/
def skBHex : List Nat := [0, 17, 34, 51, 68, 85, 102, 119, 136, 153, 170, 187, 204, 221, 238, 255]

/-- The KDF key obtained from the raw bytes of skB (what the code
installs for contB). -/
def c1Key : List Nat := [180, 55, 127, 123, 171, 242, 153, 27, 125, 105, 131, 196, 211, 225, 156, 212, 221, 55, 227, 26, 241, 201, 198, 137, 202, 34, 233, 14, 54, 91, 225, 139]

/-- The CBC chain value after decrypting the contB data chunk. -/
def c1Chain : List Nat := [96, 212, 85, 165, 165, 134, 139, 87, 232, 32, 35, 131, 206, 44, 199, 126]

/-- An RSA oracle that decrypts everything to a fixed value, used only
to witness branch selection. -/
def rsaConst : RsaDec := fun _ _ => some [1, 2, 3]

/-- A configuration with only a private key. -/
def cfgPriv : DecryptConfig :=
  { password := none, privateKey := some [5], publicKey := none }

/-- A configuration with no credentials. -/
def cfgEmpty : DecryptConfig :=
  { password := none, privateKey := none, publicKey := none }

/-- Rewrite the expectedMD5Digest component of a step result; the other
locals never depend on it. -/
def mapExpStep (e : List Nat) : StepRes → StepRes
  | StepRes.next st => StepRes.next { st with expected := e }
  | StepRes.fail st er => StepRes.fail { st with expected := e } er
  | StepRes.panicked st k => StepRes.panicked { st with expected := e } k

/-- The driver locals with the expectedMD5Digest component cleared. -/
def eraseExp (st : DState) : DState := { st with expected := [] }

/-- The KDF key of the raw contA session key with empty salt. -/
def c1WitKey : List Nat := [133, 22, 172, 153, 220, 96, 96, 50, 149, 222, 123, 219, 106, 21, 53, 48, 221, 194, 186, 119, 78, 144, 204, 181, 160, 208, 63, 113, 56, 240, 196, 29]

/-- The KDF IV of the raw contA session key with empty salt. -/
def c1WitIv : List Nat := [211, 74, 50, 114, 101, 39, 105, 93, 137, 227, 7, 116, 236, 7, 89, 226]

/-- Decidable equality of Except results. -/
instance {e a : Type} [DecidableEq e] [DecidableEq a] : DecidableEq (Except e a) := fun x y =>
  match x, y with
  | Except.ok v, Except.ok w =>
    if h : v = w then isTrue (by rw [h]) else isFalse (fun hh => h (Except.ok.inj hh))
  | Except.error v, Except.error w =>
    if h : v = w then isTrue (by rw [h]) else isFalse (fun hh => h (Except.error.inj hh))
  | Except.ok _, Except.error _ => isFalse (fun hh => Except.noConfusion hh)
  | Except.error _, Except.ok _ => isFalse (fun hh => Except.noConfusion hh)

set_option maxRecDepth 1000000

/-- Claim C3: the claim states that truncating a valid container at any
byte boundary strictly before the end yields Truncated, BadPadding or
DecompressionFailed and never success.  The code instead swallows a
clean mid-stream io.EOF and never surfaces decompressor errors: contA
is a valid container (it decrypts to "hello" under password "pw" with a
matching file_md5), yet its truncation to the 49-byte preamble decrypts
with a success return and empty output. -/
theorem c3_truncation_silent_success :
    (DecryptStreamWithFilename rsaNone cfgPw contA).halt = none ∧
    (DecryptStreamWithFilename rsaNone cfgPw contA).out = strBytes "hello" ∧
    (DecryptStreamWithFilename rsaNone cfgPw contA).digestMatched = some true ∧
    49 < contA.length ∧
    (DecryptStreamWithFilename rsaNone cfgPw (contA.take 49)).halt = none ∧
    (DecryptStreamWithFilename rsaNone cfgPw (contA.take 49)).out = [] := by
  decide!

/-- Claim C7: the decoder drops duplicate ordered-map pairs (the Go map
collapses them, keeping the last value), so the emitted header items of
contQ, whose metadata map encodes (a, "1"), (b, "2"), (a, "3"), are
only a with "3" and b with "2"; the encoded pair (a, "1") is never
emitted, and the emission order of the surviving keys is the Go map
range order, which the runtime randomizes. -/
theorem c7_ordered_pairs_collapsed :
    kvStrs (decodedItems contQ) = [([97], [51]), ([98], [50])] ∧
    (decodedItems contQ).length = 2 := by
  decide!

/-- Claim C10: the claim states the driver never panics.  The key1_hash
handler has an unguarded type assertion and an unguarded slice to 10
characters: contP (key1_hash value "short" after a decodable enc_key1,
with a password configured) makes the embedded driver reach the Go
slice-bounds panic, and contP2 (an integer key1_hash value) the type
assertion panic. -/
theorem c10_key1hash_panics :
    (DecryptStreamWithFilename rsaNone cfgPw contP).halt =
      some (Sum.inr PanicKind.sliceBounds) ∧
    (DecryptStreamWithFilename rsaNone cfgPw contP2).halt =
      some (Sum.inr PanicKind.typeAssertion) := by
  decide!

/-- Claim C1, counterexample: contB declares version major 3 (and no
salt header), its session key is valid ASCII hex, yet the driver
installs the data-chunk AES key derived from the raw session-key bytes,
not from the hex-decoded bytes: the branch in the code is on the salt
header, not on the major. -/
theorem c1_counterexample : ¬ C1Stated := fun hc =>
  absurd
    ((hc rsaNone cfgPw contB skB c1Key c1Chain 0 (by decide!) (by decide!)).2
      (by decide!) skBHex (by decide!))
    (by decide!)

theorem beNat_foldl (bs : List Nat) : ∀ a : Nat,
    bs.foldl (fun x b => x * 256 + b) a = a * 256 ^ bs.length + beNat bs := by
  induction bs with
  | nil => intro a; simp [beNat]
  | cons b tl ih =>
    intro a
    have h1 := ih (a * 256 + b)
    have h2 := ih b
    simp only [List.foldl_cons, beNat, Nat.zero_mul, Nat.zero_add] at *
    rw [h1, h2]
    simp only [List.length_cons]
    ring

theorem goShl8Or_foldl (bs : List Nat) : ∀ a : Nat,
    a * 256 ^ bs.length + beNat bs < 9223372036854775808 →
    bs.foldl goShl8Or (a : Int) = ((a * 256 ^ bs.length + beNat bs : Nat) : Int) := by
  induction bs with
  | nil => intro a h; simp [beNat]
  | cons b tl ih =>
    intro a h
    have hbe : beNat (b :: tl) = b * 256 ^ tl.length + beNat tl := by
      simpa [beNat] using beNat_foldl tl b
    have harith : (a * 256 + b) * 256 ^ tl.length + beNat tl
        = a * 256 ^ (b :: tl).length + beNat (b :: tl) := by
      simp only [List.length_cons, hbe]; ring
    have ha : a < 9223372036854775808 := by
      have h16 : 1 ≤ 256 ^ (b :: tl).length := Nat.one_le_pow _ _ (by omega)
      nlinarith [Nat.le_add_right (a * 256 ^ (b :: tl).length) (beNat (b :: tl))]
    have hstep : goShl8Or (a : Int) b = ((a * 256 + b : Nat) : Int) := by
      have hmod : ((a : Int) % 18446744073709551616) = (a : Int) :=
        Int.emod_eq_of_lt (by positivity) (by exact_mod_cast Nat.lt_trans ha (by norm_num))
      simp only [goShl8Or, hmod, Int.toNat_natCast, toInt64]
      have hlt : a * 256 + b < 9223372036854775808 := by
        have h16 : 1 ≤ 256 ^ tl.length := Nat.one_le_pow _ _ (by omega)
        nlinarith [Nat.le_add_right ((a * 256 + b) * 256 ^ tl.length) (beNat tl), harith ▸ h]
      rw [if_pos]
      · congr 1; omega
      · omega
    have h2 : (a * 256 + b) * 256 ^ tl.length + beNat tl < 9223372036854775808 := by
      rw [harith]; exact h
    calc (b :: tl).foldl goShl8Or (a : Int)
        = tl.foldl goShl8Or ((a * 256 + b : Nat) : Int) := by
          simp only [List.foldl_cons, hstep]
      _ = (((a * 256 + b) * 256 ^ tl.length + beNat tl : Nat) : Int) := ih _ h2
      _ = ((a * 256 ^ (b :: tl).length + beNat (b :: tl) : Nat) : Int) := by rw [harith]

theorem unpackBs_packBs (body : List Nat) : ∀ rest : List Nat, (∀ b ∈ body, b < 256) →
    unpackBs body.length (packBs (body ++ rest)) = body := by
  induction body with
  | nil => intro rest _; rfl
  | cons b tl ih =>
    intro rest h
    have hb : b < 256 := h b (by simp)
    have hmod : (b % 256 + 256 * packBs (tl ++ rest)) % 256 = b := by omega
    have hdiv : (b % 256 + 256 * packBs (tl ++ rest)) / 256 = packBs (tl ++ rest) := by
      omega
    simp only [List.length_cons, List.cons_append, packBs, List.foldr_cons, unpackBs]
    rw [show (tl ++ rest).foldr (fun b acc => b % 256 + 256 * acc) 0 = packBs (tl ++ rest) from rfl,
      hmod, hdiv]
    exact congrArg (b :: ·) (ih rest (fun x hx => h x (by simp [hx])))

theorem strDrop_strDrop (s : ByteStr) (a b : Nat) :
    strDrop (strDrop s a) b = strDrop s (a + b) := by
  unfold strDrop
  dsimp only
  congr 1
  · omega
  · rw [Nat.div_div_eq_div_mul, ← pow_add]

/-- Claim C9, amended: the integer decoder reads a 1-byte length L and
L big-endian body bytes; L greater than 8 is rejected, L = 0 decodes to
0 consuming nothing further, and for 0 < L ≤ 8 it returns the
big-endian unsigned value when that value is below 2^63; a value with
the top bit set wraps into a negative 64-bit two's-complement Go int
(the last conjunct shows eight 0xff bytes decoding to -1). -/
theorem c9_readInt (L : Nat) (body rest : List Nat) :
    (0 < L → L ≤ 8 → body.length = L → (∀ b ∈ body, b < 256) →
      beNat body < 9223372036854775808 →
      readInt (toStream (L :: (body ++ rest))) =
        Except.ok ((beNat body : Int), strDrop (toStream (L :: (body ++ rest))) (1 + L))) ∧
    (readInt (toStream (0 :: rest)) = Except.ok (0, strDrop (toStream (0 :: rest)) 1)) ∧
    (8 < L → L < 256 → readInt (toStream (L :: rest)) = Except.error DErr.integerTooLarge) ∧
    readInt (toStream (8 :: List.replicate 8 255)) =
      Except.ok (-1, strDrop (toStream (8 :: List.replicate 8 255)) 9) := by
  refine ⟨?_, ?_, ?_, by decide⟩
  · intro hL0 hL8 hlen hbytes hval
    have hL256 : L < 256 := by omega
    have hdat : (toStream (L :: (body ++ rest))).dat
        = L % 256 + 256 * packBs (body ++ rest) := rfl
    have hb0 : strByte (toStream (L :: (body ++ rest))) 0 = L := by
      simp only [strByte, pow_zero, Nat.div_one, hdat]
      omega
    have hlen1 : (toStream (L :: (body ++ rest))).len = body.length + rest.length + 1 := by
      simp [toStream]
    have hd1 : (strDrop (toStream (L :: (body ++ rest))) 1).dat = packBs (body ++ rest) := by
      simp only [strDrop, pow_one, hdat]
      omega
    have hl1 : (strDrop (toStream (L :: (body ++ rest))) 1).len = body.length + rest.length := by
      simp only [strDrop, hlen1]
      omega
    simp only [readInt, hb0, hlen1, hd1, hl1]
    rw [if_neg (by omega), if_neg (by omega), if_neg (by omega), if_neg (by omega),
      if_neg (by omega)]
    rw [← hlen, unpackBs_packBs body rest hbytes]
    have hfold := goShl8Or_foldl body 0 (by simpa using hval)
    simp only [Nat.cast_zero] at hfold
    rw [hfold, strDrop_strDrop]
    simp only [hlen]
    norm_num
  · have hb0 : strByte (toStream (0 :: rest)) 0 = 0 := by
      simp only [strByte, pow_zero, Nat.div_one]
      show packBs (0 :: rest) % 256 = 0
      show (0 % 256 + 256 * packBs rest) % 256 = 0
      omega
    have hlen1 : (toStream (0 :: rest)).len = rest.length + 1 := by simp [toStream]
    simp only [readInt, hb0, hlen1]
    norm_num
  · intro h8 h256
    have hb0 : strByte (toStream (L :: rest)) 0 = L := by
      simp only [strByte, pow_zero, Nat.div_one]
      show packBs (L :: rest) % 256 = L
      show (L % 256 + 256 * packBs rest) % 256 = L
      omega
    have hlen1 : (toStream (L :: rest)).len = rest.length + 1 := by simp [toStream]
    simp only [readInt, hb0, hlen1]
    rw [if_neg (by omega), if_pos (by omega)]


/-- Witness for c9_readInt: a concrete two-byte integer object. -/
theorem c9_readInt_witness :
    readInt (toStream [2, 1, 2, 9]) =
      Except.ok ((258 : Int), strDrop (toStream [2, 1, 2, 9]) (1 + 2)) :=
  (c9_readInt 2 [1, 2] [9]).1 (by decide) (by decide) (by decide) (by decide) (by decide)

/-- Claim C9, counterexample: for L = 8 and body 0xff...ff the claimed
big-endian unsigned result is 2^64 - 1, but the decoder accumulates
into a 64-bit signed Go int and returns -1. -/
theorem c9_counterexample : ¬ C9Stated := fun hc =>
  absurd
    (hc.1 8 (List.replicate 8 255) [] (by decide) (by decide) (by decide) (by decide))
    (by decide)

theorem deriveSessionKey_pw (rsa : RsaDec) (cfg : DecryptConfig) (st : DState)
    (h2 : cfg.password.isSome) (h3 : st.encKey1.isSome) :
    deriveSessionKey rsa cfg st =
      (match DecryptWithPassword (st.encKey1.getD []) (cfg.password.getD []) st.salt with
       | StripOut.ok sk => SessionKeyOut.derived sk
       | StripOut.err e => SessionKeyOut.fail (GErr.pwUnwrap e)
       | StripOut.panicked k => SessionKeyOut.panicked k) := by
  unfold deriveSessionKey
  rw [if_pos ⟨h2, h3⟩]

/-- Claim C2: exactly one key-unwrap path fires, when the first data
chunk arrives (the decryptor local is still nil).  With a password and
a decoded enc_key1 the password path fires (the outcome is determined
by DecryptWithPassword and is independent of the RSA oracle); otherwise
with a private key and a decoded enc_key2 the private-key path fires
(the outcome is determined by the RSA primitive on enc_key2 and the
private key); otherwise the step fails with the
not-enough-information error without changing the locals, so no session
key is derived.  Once a decryptor exists no unwrap path is consulted at
all: the step no longer depends on the configuration or the oracle. -/
theorem c2_unwrap_path (rsa rsa2 : RsaDec) (cfg cfg2 : DecryptConfig) (st : DState)
    (bs : List Nat) :
    (st.decryptor = none → cfg.password.isSome → st.encKey1.isSome →
      dataStep rsa cfg st bs = dataStep rsa2 cfg st bs ∧
      deriveSessionKey rsa cfg st =
        (match DecryptWithPassword (st.encKey1.getD []) (cfg.password.getD []) st.salt with
         | StripOut.ok sk => SessionKeyOut.derived sk
         | StripOut.err e => SessionKeyOut.fail (GErr.pwUnwrap e)
         | StripOut.panicked k => SessionKeyOut.panicked k)) ∧
    (¬(cfg.password.isSome ∧ st.encKey1.isSome) → cfg.privateKey.isSome → st.encKey2.isSome →
      deriveSessionKey rsa cfg st =
        (match rsa (st.encKey2.getD []) (cfg.privateKey.getD []) with
         | some sk => SessionKeyOut.derived sk
         | none => SessionKeyOut.fail GErr.pkUnwrap)) ∧
    (¬(cfg.password.isSome ∧ st.encKey1.isSome) → ¬(cfg.privateKey.isSome ∧ st.encKey2.isSome) →
      st.decryptor = none →
      dataStep rsa cfg st bs = StepRes.fail st GErr.notEnoughInfo) ∧
    (∀ p, st.decryptor = some p → dataStep rsa cfg st bs = dataStep rsa2 cfg2 st bs) := by
  refine ⟨?_, ?_, ?_, ?_⟩
  · intro h1 h2 h3
    refine ⟨?_, deriveSessionKey_pw rsa cfg st h2 h3⟩
    simp only [dataStep, h1, deriveSessionKey_pw rsa cfg st h2 h3,
      deriveSessionKey_pw rsa2 cfg st h2 h3]
  · intro h1 h2 h3
    unfold deriveSessionKey
    rw [if_neg h1, if_pos ⟨h2, h3⟩]
  · intro h1 h2 hd
    simp only [dataStep, hd]
    unfold deriveSessionKey
    rw [if_neg h1, if_neg h2]
  · intro p hp
    simp only [dataStep, hp]

/-- Witness for c2_unwrap_path: each branch at a concrete state.  The
password path is taken with a password and enc_key1 (and is independent
of the oracle; on the empty wrapped key it reaches the strip panic);
the private-key path decrypts enc_key2 with the oracle; with no usable
pair the step fails; with a decryptor installed nothing is consulted. -/
theorem c2_unwrap_path_witness :
    deriveSessionKey rsaNone cfgPw { initState with encKey1 := some [] }
      = SessionKeyOut.panicked PanicKind.indexOutOfRange ∧
    deriveSessionKey rsaConst cfgPriv { initState with encKey2 := some [9] }
      = SessionKeyOut.derived [1, 2, 3] ∧
    dataStep rsaNone cfgEmpty initState [] = StepRes.fail initState GErr.notEnoughInfo ∧
    dataStep rsaNone cfgPw { initState with decryptor := some ([], []) } []
      = dataStep rsaConst cfgPriv { initState with decryptor := some ([], []) } [] := by
  refine ⟨?_, ?_, ?_, ?_⟩
  · rw [(c2_unwrap_path rsaNone rsaConst cfgPw cfgPw
      { initState with encKey1 := some [] } []).1 rfl (by decide) (by decide) |>.2]
    decide
  · rw [(c2_unwrap_path rsaConst rsaConst cfgPriv cfgPriv
      { initState with encKey2 := some [9] } []).2.1 (by decide) (by decide) (by decide)]
    decide
  · exact (c2_unwrap_path rsaNone rsaConst cfgEmpty cfgEmpty initState []).2.2.1
      (by decide) (by decide) rfl
  · exact (c2_unwrap_path rsaNone rsaConst cfgPw cfgPriv
      { initState with decryptor := some ([], []) } []).2.2.2 ([], []) rfl

/-- Claim C1, amended: the choice of AES session-key material for the
data-stream block cipher is decided by the presence of a non-empty salt
header, not by the version major: when the accumulated salt is
non-empty the unwrapped session key is hex-decoded (falling back to the
raw bytes when hex decoding fails) and fed to
OpenSSL-KDF(material, empty_salt, 32, 16); when the salt is empty or
absent the raw bytes are fed to the same KDF.  The step installs that
key with the KDF IV as the CBC chain start and decrypts the chunk. -/
theorem c1_salt_decides_material (rsa : RsaDec) (cfg : DecryptConfig) (st : DState)
    (bs sk : List Nat)
    (h1 : st.decryptor = none)
    (h2 : deriveSessionKey rsa cfg st = SessionKeyOut.derived sk)
    (h3 : checkSessionKeyHash st.skHash sk = true)
    (h4 : bs.length % 16 = 0) :
    dataStep rsa cfg st bs =
      (let material := if st.salt.length > 0 then (hexDecode sk).getD sk else sk
       let p := CSENCPBKDF material []
       let r := cbcDecLoop (aesExpandKey p.1) p.2 bs
       StepRes.next
         { st with
           sessionKey := some sk
           decryptor := some (p.1, r.2)
           chunk := some r.1
           lzIn := st.lzIn ++ st.chunk.getD [] }) := by
  have hmk : mkDecryptor st.salt sk
      = CSENCPBKDF (if st.salt.length > 0 then (hexDecode sk).getD sk else sk) [] := by
    unfold mkDecryptor DecryptorWithPassword
    by_cases hs : st.salt.length > 0
    · rw [if_pos hs, if_pos hs]
      cases hhex : hexDecode sk <;> simp
    · rw [if_neg hs, if_neg hs]
  simp only [dataStep, h1, h2, h3, Bool.not_true, Bool.false_eq_true, if_false, hmk]
  unfold decryptData
  rw [if_neg (by omega)]
  cases hc : st.chunk <;> simp [hc]

/-- Witness for c1_salt_decides_material: the contA wrapped key at an
empty-salt state installs the KDF of the raw session key. -/
theorem c1_salt_decides_material_witness :
    deriveSessionKey rsaNone cfgPw stW = SessionKeyOut.derived skAraw ∧
    checkSessionKeyHash stW.skHash skAraw = true ∧
    dataStep rsaNone cfgPw stW [] =
      StepRes.next
        { stW with
          sessionKey := some skAraw
          decryptor := some (c1WitKey, c1WitIv)
          chunk := some []
          lzIn := [] } := by
  refine ⟨by decide!, by decide, ?_⟩
  rw [c1_salt_decides_material rsaNone cfgPw stW [] skAraw rfl (by decide!) (by decide)
    (by decide)]
  decide!

theorem runLoop_append (rsa : RsaDec) (cfg : DecryptConfig) (xs ys : List Item) :
    ∀ st : DState, runLoop rsa cfg st (xs ++ ys) =
      (match runLoop rsa cfg st xs with
       | { st := st2, halt := none } => runLoop rsa cfg st2 ys
       | r => r) := by
  induction xs with
  | nil => intro st; rfl
  | cons it tl ih =>
    intro st
    simp only [List.cons_append, runLoop]
    cases procItem rsa cfg st it with
    | next st2 => exact ih st2
    | fail st2 e => rfl
    | panicked st2 k => rfl

/-- Claim C8: a version header whose map carries integer major and
minor with major outside 1 and 3 makes the decryption fail with the
unsupported-version error carrying both numbers, whenever the items
before it process without an early return. -/
theorem c8_unsupported_version (rsa : RsaDec) (cfg : DecryptConfig)
    (pre post : List Item) (m : List (List Nat × Obj)) (a b : Int) (st1 : DState)
    (hpre : runLoop rsa cfg initState pre = { st := st1, halt := none })
    (hmaj : mapGet m (strBytes "major") = some (Obj.oint a))
    (hmin : mapGet m (strBytes "minor") = some (Obj.oint b))
    (ha1 : a ≠ 1) (ha3 : a ≠ 3) :
    (DecryptItems rsa cfg (pre ++ Item.kv (strBytes "version") (Obj.odict m) :: post)).halt =
      some (Sum.inl (GErr.unsupportedVersion a b)) := by
  have hstep : procItem rsa cfg st1 (Item.kv (strBytes "version") (Obj.odict m))
      = StepRes.fail st1 (GErr.unsupportedVersion a b) := by
    show headerStep cfg st1 (strBytes "version") (Obj.odict m) = _
    unfold headerStep
    rw [if_neg (by decide), if_neg (by decide), if_neg (by decide), if_neg (by decide),
      if_neg (by decide), if_neg (by decide), if_pos rfl]
    simp only [hmaj, hmin]
    rw [if_pos ⟨ha1, ha3⟩]
  unfold DecryptItems
  rw [runLoop_append rsa cfg pre (Item.kv (strBytes "version") (Obj.odict m) :: post) initState,
    hpre]
  simp only [runLoop, hstep]
  rfl

/-- Witness for c8_unsupported_version: a container declaring version
major 2 minor 0 fails with UnsupportedVersion(2, 0). -/
theorem c8_unsupported_version_witness :
    (DecryptItems rsaNone cfgPw
      ([] ++ Item.kv (strBytes "version")
        (Obj.odict [(strBytes "major", Obj.oint 2), (strBytes "minor", Obj.oint 0)]) :: [])).halt
      = some (Sum.inl (GErr.unsupportedVersion 2 0)) :=
  c8_unsupported_version rsaNone cfgPw [] []
    [(strBytes "major", Obj.oint 2), (strBytes "minor", Obj.oint 0)] 2 0 initState
    rfl rfl rfl (by decide) (by decide)

theorem md5Bytes_length (x : List Nat) : (md5Bytes x).length = 16 := by
  simp [md5Bytes, le4]

theorem iterMD5_succ_length (n : Nat) (x : List Nat) : (iterMD5 (n + 1) x).length = 16 := by
  simp only [iterMD5]
  exact md5Bytes_length _

theorem evpBlock_length (p s : List Nat) (c i : Nat) (hc : 0 < c) :
    (evpBlock p s c (i + 1)).length = 16 := by
  obtain ⟨n, rfl⟩ : ∃ n, c = n + 1 := ⟨c - 1, by omega⟩
  simp only [evpBlock]
  exact iterMD5_succ_length _ _

theorem evpCat_succ (p s : List Nat) (c m : Nat) :
    evpCat p s c (m + 1) = evpCat p s c m ++ evpBlock p s c (m + 1) := by
  simp [evpCat, List.range_succ]

theorem evpCat_length (p s : List Nat) (c : Nat) (hc : 0 < c) (m : Nat) :
    (evpCat p s c m).length = 16 * m := by
  induction m with
  | zero => rfl
  | succ k ih =>
    rw [evpCat_succ, List.length_append, ih, evpBlock_length p s c k hc]
    ring

theorem kdfRounds_evpCat (p s : List Nat) (c : Nat) (hc : 0 < c) (need : Nat) :
    ∀ fuel : Nat, ∀ i : Nat, need ≤ 16 * i + 16 * fuel →
      kdfRounds p s c (evpBlock p s c i) (evpCat p s c i) need fuel =
        evpCat p s c (max i ((need + 15) / 16)) := by
  intro fuel
  induction fuel with
  | zero =>
    intro i h
    have hle : (need + 15) / 16 ≤ i := by omega
    simp only [kdfRounds]
    rw [Nat.max_eq_left hle]
  | succ f ih =>
    intro i h
    by_cases hle : need ≤ 16 * i
    · simp only [kdfRounds]
      rw [if_pos (by rw [evpCat_length p s c hc]; exact hle)]
      rw [Nat.max_eq_left (by omega)]
    · simp only [kdfRounds]
      rw [if_neg (by rw [evpCat_length p s c hc]; omega)]
      have hblk : iterMD5 c (evpBlock p s c i ++ p ++ s) = evpBlock p s c (i + 1) := rfl
      rw [hblk, ← evpCat_succ, ih (i + 1) (by omega)]
      rw [Nat.max_eq_right (by omega), Nat.max_eq_right (by omega)]

/-- Claim C4: OpenSSLKDF is EVP_BytesToKey with MD5: with an empty salt
each block is MD5 iterated exactly once, with a non-empty salt exactly
1000 times; block i+1 is the count-fold MD5 of (block i, password,
salt) starting from an empty block; blocks are concatenated until at
least keySize + ivSize bytes exist (so exactly the ceiling of
(keySize + ivSize) / 16 blocks); the key is the first keySize bytes and
the IV the next ivSize; and the result is a function of the four
arguments alone. -/
theorem c4_kdf (p s : List Nat) (K V : Nat) :
    OpenSSLKDF p s K V =
      (let c := if s = [] then 1 else 1000
       let fd := evpCat p s c ((K + V + 15) / 16)
       (fd.take K, (fd.drop K).take V)) := by
  have hcount : (if s.length > 0 then 1000 else 1) = (if s = [] then 1 else 1000) := by
    rcases s with _ | ⟨x, t⟩ <;> simp
  have hc0 : 0 < (if s = [] then 1 else 1000) := by split <;> omega
  have hmain := kdfRounds_evpCat p s (if s = [] then 1 else 1000) hc0 (K + V) (K + V) 0
    (by omega)
  have hb0 : evpBlock p s (if s = [] then 1 else 1000) 0 = [] := rfl
  have hcat0 : evpCat p s (if s = [] then 1 else 1000) 0 = [] := rfl
  rw [hb0, hcat0, Nat.zero_max] at hmain
  show (let count := if s.length > 0 then 1000 else 1
        let fd := kdfRounds p s count [] [] (K + V) (K + V)
        (fd.take K, (fd.drop K).take V)) = _
  simp only [hcount, hmain]

/-- Claim C5: stripping PKCS7 padding undoes the test-helper padding:
for any byte string below the claimed length bound, padding to a
multiple of 16 and stripping returns the original bytes. -/
theorem c5_strip_unpads (s : List Nat) (h : s.length < 16 * 65536) :
    StripPKCS7Padding (addPKCS7Padding s) = StripOut.ok s := by
  have hp1 : 1 ≤ 16 - s.length % 16 := by omega
  have hp16 : 16 - s.length % 16 ≤ 16 := by omega
  have hlen : (addPKCS7Padding s).length = s.length + (16 - s.length % 16) := by
    simp [addPKCS7Padding]
  have hlast : (addPKCS7Padding s).getLast? = some (16 - s.length % 16) := by
    simp only [addPKCS7Padding]
    rw [show List.replicate (16 - s.length % 16) (16 - s.length % 16)
        = List.replicate (16 - s.length % 16 - 1) (16 - s.length % 16) ++
            [16 - s.length % 16] from by
      rw [← List.replicate_succ']
      congr 1
      omega]
    rw [← List.append_assoc]
    exact List.getLast?_concat _
  have hget : ∀ j, j < 16 - s.length % 16 →
      (addPKCS7Padding s).getD (s.length + j) 0 = 16 - s.length % 16 := by
    intro j hj
    simp only [addPKCS7Padding]
    rw [List.getD_append_right _ _ _ _ (by omega)]
    rw [show s.length + j - s.length = j from by omega]
    rw [List.getD_eq_getElem?_getD, List.getElem?_replicate, if_pos hj]
    rfl
  unfold StripPKCS7Padding
  rw [hlen, if_neg (by omega), hlast]
  dsimp only
  rw [if_neg (by omega)]
  have hfind : (List.range (16 - s.length % 16)).find?
      (fun j => (addPKCS7Padding s).getD
        (s.length + (16 - s.length % 16) - (16 - s.length % 16) + j) 0
        != (16 - s.length % 16)) = none := by
    apply List.find?_eq_none.mpr
    intro j hj
    rw [List.mem_range] at hj
    rw [show s.length + (16 - s.length % 16) - (16 - s.length % 16) + j
        = s.length + j from by omega]
    rw [hget j hj]
    simp
  rw [hfind]
  rw [show s.length + (16 - s.length % 16) - (16 - s.length % 16) = s.length from by omega]
  simp only [addPKCS7Padding]
  rw [List.take_left' rfl]

/-- Witness for c5_strip_unpads at the two-byte string 1, 2. -/
theorem c5_strip_unpads_witness :
    ([1, 2] : List Nat).length < 16 * 65536 ∧
    StripPKCS7Padding (addPKCS7Padding [1, 2]) = StripOut.ok [1, 2] :=
  ⟨by decide, c5_strip_unpads [1, 2] (by decide)⟩

theorem eraseExp_set (st : DState) (e : List Nat) :
    eraseExp { st with expected := e } = eraseExp st := rfl

theorem of_eraseExp_eq {st st2 : DState} (h : eraseExp st = eraseExp st2) :
    st2 = { st with expected := st2.expected } := by
  cases st
  cases st2
  simp only [eraseExp, DState.mk.injEq] at h ⊢
  tauto

theorem dataStep_expected (rsa : RsaDec) (cfg : DecryptConfig) (st : DState)
    (bs e : List Nat) :
    dataStep rsa cfg { st with expected := e } bs = mapExpStep e (dataStep rsa cfg st bs) := by
  have hdd : ∀ (s : DState) (key iv : List Nat),
      decryptData { s with expected := e } key iv bs = mapExpStep e (decryptData s key iv bs) := by
    intro s key iv
    obtain ⟨a1, a2, a3, a4, a5, a6, a7, a8, ch, a10⟩ := s
    unfold decryptData mapExpStep
    cases ch <;> dsimp only <;> split <;> rfl
  obtain ⟨sk0, dec, md, exp, k1, k2, sa, skh, ch, lz⟩ := st
  cases dec with
  | some p => exact hdd ⟨sk0, some p, md, exp, k1, k2, sa, skh, ch, lz⟩ p.1 p.2
  | none =>
    show dataStep rsa cfg ⟨sk0, none, md, e, k1, k2, sa, skh, ch, lz⟩ bs = _
    unfold dataStep
    dsimp only
    have hds : deriveSessionKey rsa cfg ⟨sk0, none, md, e, k1, k2, sa, skh, ch, lz⟩
        = deriveSessionKey rsa cfg ⟨sk0, none, md, exp, k1, k2, sa, skh, ch, lz⟩ := rfl
    rw [hds]
    cases hdk : deriveSessionKey rsa cfg ⟨sk0, none, md, exp, k1, k2, sa, skh, ch, lz⟩ with
    | derived sk =>
      dsimp only
      by_cases hch : checkSessionKeyHash skh sk
      · simp only [hch, Bool.not_true, Bool.false_eq_true, if_false]
        exact hdd ⟨some sk, some (mkDecryptor sa sk), md, exp, k1, k2, sa, skh, ch, lz⟩ _ _
      · rw [Bool.not_eq_true] at hch
        simp only [hch, Bool.not_false, if_true]
        rfl
    | missing => rfl
    | fail er => rfl
    | panicked k => rfl

theorem headerStep_fileMd5 (cfg : DecryptConfig) (st : DState) (v : Obj) :
    headerStep cfg st (strBytes "file_md5") v =
      StepRes.next
        (match v with
         | Obj.ostr s => { st with expected := s }
         | _ => st) := by
  unfold headerStep
  rw [if_neg (by decide), if_neg (by decide), if_neg (by decide), if_neg (by decide),
    if_neg (by decide), if_neg (by decide), if_neg (by decide), if_pos rfl]
  cases v <;> rfl

theorem headerStep_expected (cfg : DecryptConfig) (st : DState) (k : List Nat) (v : Obj)
    (e : List Nat) (hk : k ≠ strBytes "file_md5") :
    headerStep cfg { st with expected := e } k v = mapExpStep e (headerStep cfg st k v) := by
  obtain ⟨s1, s2, s3, s4, s5, s6, s7, s8, s9, s10⟩ := st
  unfold headerStep
  dsimp only
  by_cases h1 : k = strBytes "digest"
  · simp only [if_pos h1]
    cases v with
    | ostr s =>
      by_cases hmd : s = strBytes "md5"
      · simp only [if_pos hmd]; rfl
      · simp only [if_neg hmd]; rfl
    | onull => rfl
    | oint n => rfl
    | obytes b => rfl
    | odict m => rfl
  simp only [if_neg h1]
  by_cases h2 : k = strBytes "enc_key1"
  · simp only [if_pos h2]
    cases v with
    | ostr s => cases hb : base64Decode s <;> simp only [hb] <;> rfl
    | onull => rfl
    | oint n => rfl
    | obytes b => rfl
    | odict m => rfl
  simp only [if_neg h2]
  by_cases h3 : k = strBytes "enc_key2"
  · simp only [if_pos h3]
    cases v with
    | ostr s => cases hb : base64Decode s <;> simp only [hb] <;> rfl
    | onull => rfl
    | oint n => rfl
    | obytes b => rfl
    | odict m => rfl
  simp only [if_neg h3]
  by_cases h4 : k = strBytes "key1_hash"
  · simp only [if_pos h4]
    by_cases hpw : cfg.password.isSome ∧ s5.isSome
    · simp only [if_pos hpw]
      cases v with
      | ostr s =>
        by_cases hl : s.length < 10
        · simp only [if_pos hl]; rfl
        · simp only [if_neg hl]
          by_cases hsh : SaltedHashOf (s.take 10) (cfg.password.getD []) = s
          · simp only [if_pos hsh]; rfl
          · simp only [if_neg hsh]; rfl
      | onull => rfl
      | oint n => rfl
      | obytes b => rfl
      | odict m => rfl
    · simp only [if_neg hpw]; rfl
  simp only [if_neg h4]
  by_cases h5 : k = strBytes "salt"
  · simp only [if_pos h5]
    cases v <;> rfl
  simp only [if_neg h5]
  by_cases h6 : k = strBytes "session_key_hash"
  · simp only [if_pos h6]
    cases v <;> rfl
  simp only [if_neg h6]
  by_cases h7 : k = strBytes "version"
  · simp only [if_pos h7]
    cases v with
    | odict m =>
      dsimp only
      cases hma : mapGet m (strBytes "major") with
      | none => rfl
      | some o =>
        cases o with
        | oint a =>
          cases hmi : mapGet m (strBytes "minor") with
          | none => rfl
          | some o2 =>
            cases o2 with
            | oint b =>
              by_cases hab : a ≠ 1 ∧ a ≠ 3
              · simp only [if_pos hab]; rfl
              · simp only [if_neg hab]; rfl
            | onull => rfl
            | ostr s => rfl
            | obytes bb => rfl
            | odict mm => rfl
        | onull => rfl
        | ostr s => rfl
        | obytes bb => rfl
        | odict mm => rfl
    | onull => rfl
    | oint n => rfl
    | obytes b => rfl
    | ostr s => rfl
  simp only [if_neg h7]
  simp only [if_neg hk]
  rfl

theorem procItem_expected (rsa : RsaDec) (cfg : DecryptConfig) (st : DState) (e : List Nat)
    (it : Item) (hit : ∀ k vv, it = Item.kv k vv → k ≠ strBytes "file_md5") :
    procItem rsa cfg { st with expected := e } it = mapExpStep e (procItem rsa cfg st it) := by
  cases it with
  | errI er => rfl
  | dataI bs => exact dataStep_expected rsa cfg st bs e
  | kv k vv => exact headerStep_expected cfg st k vv e (hit k vv rfl)

theorem runLoop_setFileMd5 (rsa : RsaDec) (cfg : DecryptConfig) (v : List Nat) :
    ∀ (items : List Item) (st st2 : DState), eraseExp st = eraseExp st2 →
      eraseExp (runLoop rsa cfg st2 (setFileMd5 v items)).st
          = eraseExp (runLoop rsa cfg st items).st ∧
      (runLoop rsa cfg st2 (setFileMd5 v items)).halt = (runLoop rsa cfg st items).halt := by
  intro items
  induction items with
  | nil =>
    intro st st2 h
    exact ⟨h.symm, rfl⟩
  | cons it tl ih =>
    intro st st2 h
    rw [of_eraseExp_eq h]
    generalize st2.expected = E
    cases it with
    | errI er =>
      dsimp only [setFileMd5, List.map_cons, runLoop, procItem]
      exact ⟨rfl, rfl⟩
    | dataI bs =>
      dsimp only [setFileMd5, List.map_cons, runLoop, procItem]
      rw [dataStep_expected]
      cases hstep : dataStep rsa cfg st bs with
      | next s2 =>
        dsimp only [mapExpStep]
        exact ih s2 { s2 with expected := E } rfl
      | fail s2 er => exact ⟨rfl, rfl⟩
      | panicked s2 k => exact ⟨rfl, rfl⟩
    | kv k vv =>
      by_cases hk : k = strBytes "file_md5"
      · subst hk
        dsimp only [setFileMd5, List.map_cons]
        rw [if_pos rfl]
        dsimp only [runLoop, procItem]
        rw [headerStep_fileMd5, headerStep_fileMd5]
        cases vv <;> dsimp only <;> exact ih _ _ rfl
      · dsimp only [setFileMd5, List.map_cons]
        rw [if_neg hk]
        dsimp only [runLoop, procItem]
        rw [headerStep_expected cfg st k vv E hk]
        cases hstep : headerStep cfg st k vv with
        | next s2 =>
          dsimp only [mapExpStep]
          exact ih s2 { s2 with expected := E } rfl
        | fail s2 er => exact ⟨rfl, rfl⟩
        | panicked s2 k2 => exact ⟨rfl, rfl⟩

theorem finishRun_expected (s : DState) (e : List Nat) (hh : Option (GErr ⊕ PanicKind)) :
    (finishRun { st := { s with expected := e }, halt := hh }).out
        = (finishRun { st := s, halt := hh }).out ∧
    (finishRun { st := { s with expected := e }, halt := hh }).halt
        = (finishRun { st := s, halt := hh }).halt := by
  obtain ⟨a1, a2, a3, a4, a5, a6, a7, a8, ch, lz⟩ := s
  cases hh with
  | some h => exact ⟨rfl, rfl⟩
  | none =>
    unfold finishRun
    dsimp only
    cases ch with
    | none => exact ⟨rfl, rfl⟩
    | some c =>
      dsimp only
      cases StripPKCS7Padding c <;> exact ⟨rfl, rfl⟩

/-- Claim C6: a trailing file_md5 mismatch is a soft failure.  The
declared file_md5 value never influences the result: replacing every
file_md5 header value by an arbitrary string leaves both the emitted
output bytes and the return value (success or the exact error or panic)
unchanged, so an otherwise valid container decrypts to the same bytes
with a success return whether or not the declared digest matches; only
the recorded (and discarded) digest comparison can differ. -/
theorem c6_fileMd5_soft (rsa : RsaDec) (cfg : DecryptConfig) (items : List Item)
    (v : List Nat) :
    (DecryptItems rsa cfg (setFileMd5 v items)).out = (DecryptItems rsa cfg items).out ∧
    (DecryptItems rsa cfg (setFileMd5 v items)).halt = (DecryptItems rsa cfg items).halt := by
  have hrel := runLoop_setFileMd5 rsa cfg v items initState initState rfl
  unfold DecryptItems
  rcases hR : runLoop rsa cfg initState items with ⟨sA, hA⟩
  rcases hS : runLoop rsa cfg initState (setFileMd5 v items) with ⟨sB, hB⟩
  rw [hR, hS] at hrel
  obtain ⟨hst, hhalt⟩ := hrel
  dsimp only at hst hhalt
  have h2 := of_eraseExp_eq hst.symm
  rw [h2, hhalt]
  exact finishRun_expected sA sB.expected hA

end SynoDecrypt
